import Mathlib

/-!
Verification development for the authentication / session subsystem of the
cig-exchange-libs repository (Go).  The Go source is shallowly embedded:

* the Redis ephemeral store becomes a function from keys to optional
  entries carrying an absolute expiry instant (seconds);
* the relational store (users, organisation_user links) becomes lists of
  records, with gorm query/update semantics made explicit;
* the HS256-signed JWT of GenerateJWTString is idealised as an injective,
  invertible serialisation of the claims together with the signing secret
  (collision-freeness of the MAC is the standard idealisation);
* handlers become pure functions from (environment, stores, clock, request)
  to (stores, response).
-/

/-! ### Hex codec for the JWT idealisation -/

/-- Inverse of Nat.digitChar on the sixteen hex digit characters. -/
def hexVal (c : Char) : Nat :=
  if c = '0' then 0 else if c = '1' then 1 else if c = '2' then 2
  else if c = '3' then 3 else if c = '4' then 4 else if c = '5' then 5
  else if c = '6' then 6 else if c = '7' then 7 else if c = '8' then 8
  else if c = '9' then 9 else if c = 'a' then 10 else if c = 'b' then 11
  else if c = 'c' then 12 else if c = 'd' then 13 else if c = 'e' then 14
  else if c = 'f' then 15 else 0

theorem hexVal_digitChar : ∀ d < 16, hexVal (Nat.digitChar d) = d := by decide

theorem digitChar_ne_sep : ∀ d < 16, Nat.digitChar d ≠ 'g' ∧ Nat.digitChar d ≠ ' ' := by
  decide

/-- Little-endian base-16 digits, with explicit fuel so that the definition
is structurally recursive and reduces inside the kernel. -/
def toHexAux : Nat → Nat → List Nat
  | 0, _ => []
  | _ + 1, 0 => []
  | fuel + 1, n + 1 => (n + 1) % 16 :: toHexAux fuel ((n + 1) / 16)

def toHex (n : Nat) : List Nat := toHexAux n n

/-- Value of a little-endian base-16 digit list. -/
def fromHex : List Nat → Nat
  | [] => 0
  | d :: rest => d + 16 * fromHex rest

theorem toHexAux_lt : ∀ fuel n, ∀ d ∈ toHexAux fuel n, d < 16 := by
  intro fuel
  induction fuel with
  | zero => intro n d hd; simp [toHexAux] at hd
  | succ f ih =>
    intro n d hd
    cases n with
    | zero => simp [toHexAux] at hd
    | succ m =>
      simp only [toHexAux, List.mem_cons] at hd
      rcases hd with rfl | hd
      · exact Nat.mod_lt _ (by norm_num)
      · exact ih _ d hd

theorem toHex_lt (n : Nat) : ∀ d ∈ toHex n, d < 16 := toHexAux_lt n n

theorem fromHex_toHexAux : ∀ fuel n, n ≤ fuel → fromHex (toHexAux fuel n) = n := by
  intro fuel
  induction fuel with
  | zero =>
    intro n h
    have hn : n = 0 := Nat.le_zero.mp h
    subst hn
    rfl
  | succ f ih =>
    intro n h
    cases n with
    | zero => rfl
    | succ m =>
      have hdiv : (m + 1) / 16 ≤ f := by
        have h1 : (m + 1) / 16 < m + 1 := Nat.div_lt_self (Nat.succ_pos m) (by norm_num)
        omega
      simp only [toHexAux, fromHex]
      rw [ih _ hdiv]
      exact Nat.mod_add_div (m + 1) 16

theorem fromHex_toHex (n : Nat) : fromHex (toHex n) = n := fromHex_toHexAux n n le_rfl

/-- Encode a list of naturals as hex digits, each number terminated by a 'g'. -/
def encNatList : List Nat → List Char
  | [] => []
  | n :: rest => (toHex n).map Nat.digitChar ++ 'g' :: encNatList rest

/-- Decode the output of encNatList; the accumulator holds the reversed
current chunk of hex digits. -/
def decNatList : List Char → List Char → Option (List Nat)
  | [], acc => if acc.isEmpty then some [] else none
  | c :: rest, acc =>
    if c = 'g' then
      (decNatList rest []).map (fun l => fromHex (acc.reverse.map hexVal) :: l)
    else
      decNatList rest (c :: acc)

theorem decNatList_chunk (chunk : List Char) (h : ∀ c ∈ chunk, c ≠ 'g') :
    ∀ (rest acc : List Char),
      decNatList (chunk ++ 'g' :: rest) acc
        = (decNatList rest []).map
            (fun l => fromHex ((acc.reverse ++ chunk).map hexVal) :: l) := by
  induction chunk with
  | nil => intro rest acc; simp [decNatList]
  | cons c cs ih =>
    intro rest acc
    have hc : c ≠ 'g' := h c (by simp)
    have hcs : ∀ x ∈ cs, x ≠ 'g' := fun x hx => h x (by simp [hx])
    have hstep : decNatList ((c :: cs) ++ 'g' :: rest) acc
        = decNatList (cs ++ 'g' :: rest) (c :: acc) := by
      simp [decNatList, hc]
    rw [hstep, ih hcs rest (c :: acc)]
    simp

theorem encNatList_chars (l : List Nat) :
    ∀ c ∈ encNatList l, c = 'g' ∨ ∃ d, d < 16 ∧ c = Nat.digitChar d := by
  induction l with
  | nil => intro c hc; simp [encNatList] at hc
  | cons n rest ih =>
    intro c hc
    simp only [encNatList, List.mem_append, List.mem_cons] at hc
    rcases hc with hc | hc | hc
    · rcases List.mem_map.mp hc with ⟨d, hd, rfl⟩
      exact Or.inr ⟨d, toHex_lt n d hd, rfl⟩
    · exact Or.inl hc
    · exact ih c hc

theorem encNatList_no_space (l : List Nat) : ∀ c ∈ encNatList l, c ≠ ' ' := by
  intro c hc
  rcases encNatList_chars l c hc with rfl | ⟨d, hd, rfl⟩
  · decide
  · exact (digitChar_ne_sep d hd).2

theorem decNatList_encNatList (l : List Nat) : decNatList (encNatList l) [] = some l := by
  induction l with
  | nil => rfl
  | cons n rest ih =>
    have hg : ∀ c ∈ (toHex n).map Nat.digitChar, c ≠ 'g' := by
      intro c hc
      rcases List.mem_map.mp hc with ⟨d, hd, rfl⟩
      exact (digitChar_ne_sep d (toHex_lt n d hd)).1
    rw [encNatList, decNatList_chunk _ hg, ih]
    have hmap : ((toHex n).map Nat.digitChar).map hexVal = toHex n := by
      rw [List.map_map]
      conv_rhs => rw [show toHex n = (toHex n).map id from (List.map_id _).symm]
      exact List.map_congr_left (fun d hd => hexVal_digitChar d (toHex_lt n d hd))
    simp [hmap, fromHex_toHex]

/-! ### Claims serialisation (idealised HS256 signing) -/

/-- jwt.StandardClaims as used by the Go `token` struct (IssuedAt, ExpiresAt,
unix seconds). -/
structure StdClaims where
  issuedAt : Nat
  expiresAt : Nat
deriving DecidableEq, Repr

/-- the Go `token` struct carrying user and organisation UUIDs plus the
standard claims. -/
structure TokenClaims where
  userUUID : String
  organisationUUID : String
  std : StdClaims
deriving DecidableEq, Repr

/-- Length-prefixed serialisation of the claims plus signing secret into a
list of naturals. -/
def serializeToken (secret : String) (tk : TokenClaims) : List Nat :=
  tk.userUUID.data.length :: tk.userUUID.data.map Char.toNat
  ++ tk.organisationUUID.data.length :: tk.organisationUUID.data.map Char.toNat
  ++ tk.std.issuedAt :: tk.std.expiresAt
  :: secret.data.length :: secret.data.map Char.toNat

/-- Read exactly n elements off the front of a list. -/
def readChunk : Nat → List Nat → Option (List Nat × List Nat)
  | 0, l => some ([], l)
  | _ + 1, [] => none
  | n + 1, x :: xs => (readChunk n xs).map (fun p => (x :: p.1, p.2))

theorem readChunk_append (l r : List Nat) : readChunk l.length (l ++ r) = some (l, r) := by
  induction l with
  | nil => rfl
  | cons x xs ih => simp [readChunk, ih]

/-- Inverse of serializeToken. -/
def parseSerialized (l : List Nat) : Option (String × TokenClaims) :=
  match l with
  | [] => none
  | n1 :: r1 =>
    match readChunk n1 r1 with
    | none => none
    | some (uChars, r2) =>
      match r2 with
      | [] => none
      | n2 :: r3 =>
        match readChunk n2 r3 with
        | none => none
        | some (oChars, r4) =>
          match r4 with
          | iat :: exp :: n3 :: r5 =>
            match readChunk n3 r5 with
            | some (sChars, []) =>
              some (⟨sChars.map Char.ofNat⟩,
                ⟨⟨uChars.map Char.ofNat⟩, ⟨oChars.map Char.ofNat⟩, ⟨iat, exp⟩⟩)
            | _ => none
          | _ => none

theorem map_ofNat_toNat (l : List Char) : (l.map Char.toNat).map Char.ofNat = l := by
  rw [List.map_map]
  conv_rhs => rw [show l = l.map id from (List.map_id _).symm]
  exact List.map_congr_left (fun c _ => Char.ofNat_toNat c)

theorem map_ofNat_comp_toNat (l : List Char) : List.map (Char.ofNat ∘ Char.toNat) l = l := by
  rw [← List.map_map]
  exact map_ofNat_toNat l

theorem readChunk_map_append (l : List Char) (r : List Nat) :
    readChunk l.length (l.map Char.toNat ++ r) = some (l.map Char.toNat, r) := by
  have h := readChunk_append (l.map Char.toNat) r
  rwa [List.length_map] at h

theorem parseSerialized_serializeToken (secret : String) (tk : TokenClaims) :
    parseSerialized (serializeToken secret tk) = some (secret, tk) := by
  obtain ⟨sd⟩ := secret
  obtain ⟨⟨ud⟩, ⟨od⟩, iat, exp⟩ := tk
  have h3 : readChunk sd.length (sd.map Char.toNat) = some (sd.map Char.toNat, []) := by
    have h := readChunk_append (sd.map Char.toNat) []
    rwa [List.length_map, List.append_nil] at h
  simp [serializeToken, parseSerialized, readChunk_map_append, h3, map_ofNat_toNat, map_ofNat_comp_toNat]

/-- The idealised signed JWT string: injective encoding of (secret, claims)
into a space-free character string. -/
def signJWTChars (secret : String) (tk : TokenClaims) : List Char :=
  encNatList (serializeToken secret tk)

def signJWT (secret : String) (tk : TokenClaims) : String :=
  ⟨signJWTChars secret tk⟩

/-- jwt.StandardClaims.Valid at the parse instant (unix seconds): the
expiry and issued-at checks the jwt-go parser runs on the claims, each
skipped when the claim carries the zero value (VerifyExpiresAt and
VerifyIssuedAt with required = false); NotBefore is never set by this
program, so its check always passes. -/
def stdClaimsValid (std : StdClaims) (now : Nat) : Bool :=
  decide ((std.expiresAt = 0 ∨ now ≤ std.expiresAt)
    ∧ (std.issuedAt = 0 ∨ std.issuedAt ≤ now))

/-- Model of jwt.ParseWithClaims with the key function returning the
environment signing secret: parsing succeeds exactly on strings produced by
signJWT with the same secret whose standard claims pass the library's time
validation at the parse instant — an expired or future-issued token fails
the parse, just like a badly signed one. -/
def parseWithClaims (secret : String) (s : String) (now : Nat) : Option TokenClaims :=
  match decNatList s.data [] with
  | none => none
  | some nats =>
    match parseSerialized nats with
    | none => none
    | some (sec, tk) =>
      if sec = secret ∧ stdClaimsValid tk.std now then some tk else none

theorem parseWithClaims_signJWT (secret : String) (tk : TokenClaims) (now : Nat)
    (hvalid : stdClaimsValid tk.std now = true) :
    parseWithClaims secret (signJWT secret tk) now = some tk := by
  simp [parseWithClaims, signJWT, signJWTChars, decNatList_encNatList,
    parseSerialized_serializeToken, hvalid]

theorem parseWithClaims_signJWT_not_valid (secret : String) (tk : TokenClaims) (now : Nat)
    (hvalid : stdClaimsValid tk.std now = false) :
    parseWithClaims secret (signJWT secret tk) now = none := by
  simp [parseWithClaims, signJWT, signJWTChars, decNatList_encNatList,
    parseSerialized_serializeToken, hvalid]

theorem signJWT_inj {secret : String} {tk1 tk2 : TokenClaims}
    (h : signJWT secret tk1 = signJWT secret tk2) : tk1 = tk2 := by
  have hd1 : decNatList (signJWT secret tk1).data []
      = some (serializeToken secret tk1) := by
    simp [signJWT, signJWTChars, decNatList_encNatList]
  have hd2 : decNatList (signJWT secret tk2).data []
      = some (serializeToken secret tk2) := by
    simp [signJWT, signJWTChars, decNatList_encNatList]
  rw [h, hd2] at hd1
  have hser : serializeToken secret tk2 = serializeToken secret tk1 := Option.some.inj hd1
  have hp2 := parseSerialized_serializeToken secret tk2
  rw [hser, parseSerialized_serializeToken secret tk1] at hp2
  exact congrArg Prod.snd (Option.some.inj hp2)

theorem signJWT_no_space (secret : String) (tk : TokenClaims) :
    ∀ c ∈ (signJWT secret tk).data, c ≠ ' ' :=
  encNatList_no_space (serializeToken secret tk)

/-! ### Redis ephemeral store -/

/-- One redis entry: a string value and the absolute instant (in seconds)
at which it expires. -/
structure RedisEntry where
  value : String
  expiry : Nat
deriving DecidableEq, Repr

/-- The redis store, keyed by strings. -/
def RedisState := String → Option RedisEntry

/-- An empty store. -/
def redisEmpty : RedisState := fun _ => none

/-- redis SET key value ttl: overwrites the entry and its time to live. -/
def redisSet (st : RedisState) (key value : String) (ttlSec now : Nat) : RedisState :=
  fun k => if k = key then some ⟨value, now + ttlSec⟩ else st k

/-- redis GET at the given instant: a missing or expired key yields none
(the go-redis Get command then carries the redis.Nil error). -/
def redisGet (st : RedisState) (key : String) (now : Nat) : Option String :=
  match st key with
  | some e => if now < e.expiry then some e.value else none
  | none => none

/-- redis DEL. -/
def redisDel (st : RedisState) (key : String) : RedisState :=
  fun k => if k = key then none else st k

theorem redisGet_set_same (st : RedisState) (key value : String) (ttl now t : Nat)
    (h : t < now + ttl) : redisGet (redisSet st key value ttl now) key t = some value := by
  simp [redisGet, redisSet, h]

theorem redisGet_set_other (st : RedisState) (key value k : String) (ttl now t : Nat)
    (h : k ≠ key) : redisGet (redisSet st key value ttl now) k t = redisGet st k t := by
  simp [redisGet, redisSet, h]

theorem redisGet_del_same (st : RedisState) (key : String) (t : Nat) :
    redisGet (redisDel st key) key t = none := by
  simp [redisGet, redisDel]

theorem redisGet_del_other (st : RedisState) (key k : String) (t : Nat) (h : k ≠ key) :
    redisGet (redisDel st key) k t = redisGet st k t := by
  simp [redisGet, redisDel, h]

/-! ### APIError (errors.go) -/

def ErrorTypeBadRequest : String := "Bad request"
def ErrorTypeUnauthorized : String := "Unauthorized"
def ErrorTypeForbidden : String := "Forbidden"
def ErrorTypeInternalServer : String := "Internal server error"

def ReasonUserAlreadyExists : String := "User already exists"
def ReasonUserDoesntExist : String := "User doesn't exist"
def ReasonOrganisationUserDoesntExist : String := "Organisation User doesn't exist"
def ReasonNotAllowed : String := "Not allowed / wrong permissions"
def ReasonFieldMissing : String := "Required field missing"
def ReasonFieldInvalid : String := "Invalid field"
def ReasonRedisFailure : String := "Redis error"
def ReasonTwilioFailure : String := "Twilio error"

/-- NestedAPIError of errors.go (the OriginalError go field is not
client-visible and is dropped). -/
structure NestedAPIError where
  field : String
  reason : String
  message : String
deriving DecidableEq, Repr

/-- APIError of errors.go. -/
structure APIError where
  typ : String
  code : Nat
  message : String
  errors : List NestedAPIError
deriving DecidableEq, Repr

/-- APIError.SetErrorType from errors.go. -/
def setErrorType (e : APIError) (t : String) : APIError :=
  let code :=
    if t = ErrorTypeBadRequest then 400
    else if t = ErrorTypeUnauthorized then 401
    else if t = "Unprocessable Entity" then 422
    else if t = ErrorTypeInternalServer then 500
    else 500
  let msg :=
    if t = ErrorTypeBadRequest ∨ t = ErrorTypeUnauthorized ∨ t = "Unprocessable Entity"
        ∨ t = ErrorTypeInternalServer then t
    else "Unknown server error"
  { e with typ := t, code := code, message := msg }

/-- APIError.NewNestedError from errors.go (field left empty). -/
def newNestedError (e : APIError) (reason message : String) : APIError :=
  { e with errors := e.errors ++ [⟨"", reason, message⟩] }

def emptyAPIError : APIError := ⟨"", 0, "", []⟩

def newAccessForbiddenError (message : String) : APIError :=
  newNestedError (setErrorType emptyAPIError ErrorTypeForbidden) ReasonNotAllowed message

def newUserDoesntExistError (message : String) : APIError :=
  newNestedError (setErrorType emptyAPIError ErrorTypeUnauthorized) ReasonUserDoesntExist message

def newOrganisationUserDoesntExistError (message : String) : APIError :=
  newNestedError (setErrorType emptyAPIError ErrorTypeBadRequest)
    ReasonOrganisationUserDoesntExist message

def newRequiredFieldError (fields : List String) : APIError :=
  { setErrorType emptyAPIError ErrorTypeBadRequest with
    errors := fields.map (fun f => ⟨f, ReasonFieldMissing, "Required field missing"⟩) }

def newInvalidFieldError (fieldName message : String) : APIError :=
  { setErrorType emptyAPIError ErrorTypeBadRequest with
    errors := [⟨fieldName, ReasonFieldInvalid, message⟩] }

def newRedisError (message : String) : APIError :=
  newNestedError (setErrorType emptyAPIError ErrorTypeInternalServer) ReasonRedisFailure message

def newTwilioError (message : String) : APIError :=
  newNestedError (setErrorType emptyAPIError ErrorTypeInternalServer) ReasonTwilioFailure message

/-- APIError.ShouldSilenceError from errors.go. -/
def shouldSilenceError (e : APIError) : Bool :=
  match e.errors with
  | [] => false
  | first :: _ =>
    if e.typ = ErrorTypeUnauthorized ∧ first.reason = ReasonUserAlreadyExists then true
    else if e.typ = ErrorTypeUnauthorized ∧ first.reason = ReasonUserDoesntExist then true
    else false

/-! ### strings.Split on a single separator character -/

/-- Go strings.Split with a one-character separator, on explicit character
lists. -/
def splitOnChar (sep : Char) : List Char → List (List Char)
  | [] => [[]]
  | c :: rest =>
    if c = sep then [] :: splitOnChar sep rest
    else
      match splitOnChar sep rest with
      | [] => [[c]]
      | h :: t => (c :: h) :: t

theorem splitOnChar_ne_nil (sep : Char) (l : List Char) : splitOnChar sep l ≠ [] := by
  induction l with
  | nil => simp [splitOnChar]
  | cons c rest ih =>
    by_cases hc : c = sep
    · simp [splitOnChar, hc]
    · simp only [splitOnChar, if_neg hc]
      cases h : splitOnChar sep rest with
      | nil => simp
      | cons a b => simp

theorem splitOnChar_no_sep (sep : Char) (l : List Char) (h : ∀ c ∈ l, c ≠ sep) :
    splitOnChar sep l = [l] := by
  induction l with
  | nil => rfl
  | cons c rest ih =>
    have hc : c ≠ sep := h c (by simp)
    have hrest := ih (fun x hx => h x (by simp [hx]))
    simp [splitOnChar, hc, hrest]

theorem splitOnChar_append (sep : Char) (l1 l2 : List Char) (h : ∀ c ∈ l1, c ≠ sep) :
    splitOnChar sep (l1 ++ sep :: l2) = l1 :: splitOnChar sep l2 := by
  induction l1 with
  | nil => simp [splitOnChar]
  | cons c rest ih =>
    have hc : c ≠ sep := h c (by simp)
    have hrest := ih (fun x hx => h x (by simp [hx]))
    simp [splitOnChar, hc, hrest]

/-- Go strings.HasPrefix on character lists. -/
def listHasPref : List Char → List Char → Bool
  | _, [] => true
  | [], _ :: _ => false
  | c :: s, p :: ps => if c = p then listHasPref s ps else false

/-- Go strings.HasPrefix on strings. -/
def strHasPref (s pre : String) : Bool := listHasPref s.data pre.data

/-! ### Session token service (part of auth/authApi.go) -/

/-- Environment of the service: the TOKEN_PASSWORD signing secret and the
DEV-environment flag. -/
structure Env where
  tokenPassword : String
  isDev : Bool

/-- tokenExpirationTimeInMin = 60 * 24 * 31 (one month), in minutes. -/
def tokenExpirationTimeInMin : Nat := 60 * 24 * 31

/-- GenerateJWTString: builds the claims at the current instant, signs them,
and stores the token string in redis under key userUUID|organisationUUID
with the token lifetime as TTL.  Signing and the store write cannot fail in
the model, so the error returns of the Go function do not appear. -/
def generateJWTString (env : Env) (st : RedisState) (now : Nat)
    (userUUID organisationUUID : String) : RedisState × String × TokenClaims :=
  let tk : TokenClaims := ⟨userUUID, organisationUUID,
    ⟨now, now + 60 * tokenExpirationTimeInMin⟩⟩
  let tokenString := signJWT env.tokenPassword tk
  let redisKey := userUUID ++ "|" ++ organisationUUID
  (redisSet st redisKey tokenString (60 * tokenExpirationTimeInMin) now, tokenString, tk)

/-- The claims GenerateJWTString builds at t1 pass the parser's time
validation at any instant of the token's lifetime window. -/
theorem stdClaimsValid_fresh (t1 t2 : Nat) (hle : t1 ≤ t2)
    (hwin : t2 ≤ t1 + 60 * tokenExpirationTimeInMin) :
    stdClaimsValid ⟨t1, t1 + 60 * tokenExpirationTimeInMin⟩ t2 = true := by
  simp [stdClaimsValid, tokenExpirationTimeInMin] at *
  omega

/-- Beyond the lifetime window the same claims fail the time validation. -/
theorem stdClaimsValid_expired (t1 t2 : Nat)
    (hlate : t1 + 60 * tokenExpirationTimeInMin < t2) :
    stdClaimsValid ⟨t1, t1 + 60 * tokenExpirationTimeInMin⟩ t2 = false := by
  simp [stdClaimsValid, tokenExpirationTimeInMin] at *
  omega

/-- Outcome of the JwtAuthenticationHandler middleware for one request. -/
inductive AuthOutcome where
  /-- the request path carries the skip marker: served without auth -/
  | skipped
  /-- rejected with an APIError response -/
  | reject (e : APIError)
  /-- token accepted: the wrapped handler runs with these context claims -/
  | proceed (tk : TokenClaims)
deriving DecidableEq, Repr

/-- JwtAuthenticationHandler: the validation gate in front of every
protected endpoint.  The request is abstracted to its path and its
Authorization header (the empty string when the header is absent, as
returned by Header.Get). -/
def jwtAuthenticationHandler (env : Env) (st : RedisState) (now : Nat)
    (requestPath skipPref : String) (authHeader : String) : AuthOutcome :=
  if strHasPref requestPath skipPref then .skipped
  else if authHeader = "" then
    .reject (newAccessForbiddenError "Missing auth token.")
  else
    let splitted := splitOnChar ' ' authHeader.data
    if splitted.length ≠ 2 then
      .reject (newAccessForbiddenError "Invalid/Malformed auth token.")
    else
      let tokenPart : String := ⟨splitted.getD 1 []⟩
      match parseWithClaims env.tokenPassword tokenPart now with
      | none => .reject (newAccessForbiddenError "Malformed authentication token.")
      | some tk =>
        let redisKey := tk.userUUID ++ "|" ++ tk.organisationUUID
        match redisGet st redisKey now with
        | none =>
          .reject (newAccessForbiddenError "Token is not valid (not issued by the server).")
        | some v =>
          if v ≠ tokenPart then
            .reject (newAccessForbiddenError "Token is corrupted (not issued by the server).")
          else .proceed tk

/-! ### Lemmas about Bearer headers -/

theorem string_mk_data (s : String) : String.mk s.data = s := by
  cases s
  rfl

theorem bearer_header_data (ts : String) :
    ("Bearer " ++ ts).data = 'B' :: 'e' :: 'a' :: 'r' :: 'e' :: 'r' :: ' ' :: ts.data := by
  cases ts
  rfl

theorem bearer_ne_empty (ts : String) : ("Bearer " ++ ts) ≠ "" := by
  intro h
  have h2 : ("Bearer " ++ ts).data = "".data := congrArg String.data h
  rw [bearer_header_data] at h2
  exact List.cons_ne_nil _ _ h2

theorem split_bearer (ts : String) (hts : ∀ c ∈ ts.data, c ≠ ' ') :
    splitOnChar ' ' ("Bearer " ++ ts).data = [['B', 'e', 'a', 'r', 'e', 'r'], ts.data] := by
  rw [bearer_header_data]
  have h1 : ∀ c ∈ ['B', 'e', 'a', 'r', 'e', 'r'], c ≠ ' ' := by decide
  have h2 := splitOnChar_append ' ' ['B', 'e', 'a', 'r', 'e', 'r'] ts.data h1
  rw [show ('B' :: 'e' :: 'a' :: 'r' :: 'e' :: 'r' :: ' ' :: ts.data)
      = (['B', 'e', 'a', 'r', 'e', 'r'] ++ ' ' :: ts.data) from rfl, h2,
    splitOnChar_no_sep ' ' ts.data hts]

/-- Evaluation of the gate on a well-formed Bearer header whose token part
contains no space. -/
theorem jwtAuth_bearer (env : Env) (st : RedisState) (now : Nat)
    (path skipPref ts : String) (hskip : strHasPref path skipPref = false)
    (hts : ∀ c ∈ ts.data, c ≠ ' ') :
    jwtAuthenticationHandler env st now path skipPref ("Bearer " ++ ts) =
      match parseWithClaims env.tokenPassword ts now with
      | none => .reject (newAccessForbiddenError "Malformed authentication token.")
      | some tk =>
        match redisGet st (tk.userUUID ++ "|" ++ tk.organisationUUID) now with
        | none =>
          .reject (newAccessForbiddenError "Token is not valid (not issued by the server).")
        | some v =>
          if v ≠ ts then
            .reject (newAccessForbiddenError "Token is corrupted (not issued by the server).")
          else .proceed tk := by
  simp only [jwtAuthenticationHandler, hskip, Bool.false_eq_true, if_false,
    if_neg (bearer_ne_empty ts), split_bearer ts hts]
  simp [string_mk_data]

/-! ### Claim C2 -/

/-- C2: for every (u, o) for which GenerateJWTString returns a token string,
immediately presenting that token as Authorization Bearer header to
JwtAuthenticationHandler (on a non-skipped path) reaches the wrapped
handler, and the user and organisation UUIDs extracted from the validated
token equal u and o. -/
theorem issue_then_validate (env : Env) (st : RedisState) (now : Nat)
    (u o path skipPref : String) (hskip : strHasPref path skipPref = false) :
    jwtAuthenticationHandler env (generateJWTString env st now u o).1 now path skipPref
        ("Bearer " ++ (generateJWTString env st now u o).2.1)
      = .proceed (generateJWTString env st now u o).2.2
    ∧ (generateJWTString env st now u o).2.2.userUUID = u
    ∧ (generateJWTString env st now u o).2.2.organisationUUID = o := by
  refine ⟨?_, rfl, rfl⟩
  have hts := signJWT_no_space env.tokenPassword
    ⟨u, o, ⟨now, now + 60 * tokenExpirationTimeInMin⟩⟩
  rw [show (generateJWTString env st now u o).2.1
      = signJWT env.tokenPassword ⟨u, o, ⟨now, now + 60 * tokenExpirationTimeInMin⟩⟩ from rfl,
    jwtAuth_bearer env _ now path skipPref _ hskip hts,
    parseWithClaims_signJWT env.tokenPassword _ now
      (stdClaimsValid_fresh now now le_rfl (Nat.le_add_right now _))]
  have hget : redisGet (generateJWTString env st now u o).1 (u ++ "|" ++ o) now
      = some (signJWT env.tokenPassword ⟨u, o, ⟨now, now + 60 * tokenExpirationTimeInMin⟩⟩) := by
    apply redisGet_set_same
    simp [tokenExpirationTimeInMin]
  simp only [hget]
  simp only [ite_not, if_pos rfl]
  rfl

theorem issue_then_validate_witness :
    jwtAuthenticationHandler ⟨"k", false⟩
        (generateJWTString ⟨"k", false⟩ redisEmpty 5 "u" "o").1 5 "/api/x" "/skip"
        ("Bearer " ++ (generateJWTString ⟨"k", false⟩ redisEmpty 5 "u" "o").2.1)
      = .proceed (generateJWTString ⟨"k", false⟩ redisEmpty 5 "u" "o").2.2
    ∧ (generateJWTString ⟨"k", false⟩ redisEmpty 5 "u" "o").2.2.userUUID = "u"
    ∧ (generateJWTString ⟨"k", false⟩ redisEmpty 5 "u" "o").2.2.organisationUUID = "o" :=
  issue_then_validate ⟨"k", false⟩ redisEmpty 5 "u" "o" "/api/x" "/skip" (by decide)

/-! ### Claim C1 -/

/-- C1 counterexample: GenerateJWTString is deterministic in its inputs and
the clock instant, so two Issue calls in sequence within the same unix
second produce byte-identical token strings; the second store write then
re-stores the same value and validating the token from the first call still
succeeds (reaches the wrapped handler) instead of failing with the
revoked/unknown-token error. -/
theorem issue_twice_same_second_still_valid :
    jwtAuthenticationHandler ⟨"k", false⟩
        (generateJWTString ⟨"k", false⟩
          (generateJWTString ⟨"k", false⟩ redisEmpty 5 "u" "o").1 5 "u" "o").1
        5 "/api/x" "/skip"
        ("Bearer " ++ (generateJWTString ⟨"k", false⟩ redisEmpty 5 "u" "o").2.1)
      = .proceed ⟨"u", "o", ⟨5, 2678405⟩⟩ := by
  decide

/-- C1 (amended): if GenerateJWTString is called twice in sequence for the
same (u, o) at issuance instants t1 < t2 (unix seconds), then validating
the token returned by the first call right after the second call completes
(at t2, an instant inside the first token's 31-day validity window) fails
with the revoked/unknown-token rejection: the second Issue overwrote the
store entry under key u|o and the stored value no longer equals the
presented token byte-for-byte.  When t2 lies beyond the first token's
validity window, the gate rejects the first token already at the parse
step (jwt-go validates the expiry claim during parsing) with the
malformed-token error instead of the byte-compare rejection. -/
theorem issue_twice_revokes_first (env : Env) (st : RedisState) (t1 t2 : Nat)
    (u o path skipPref : String) (hskip : strHasPref path skipPref = false) :
    (t1 < t2 → t2 ≤ t1 + 60 * tokenExpirationTimeInMin →
      jwtAuthenticationHandler env
          (generateJWTString env (generateJWTString env st t1 u o).1 t2 u o).1
          t2 path skipPref
          ("Bearer " ++ (generateJWTString env st t1 u o).2.1)
        = .reject (newAccessForbiddenError "Token is corrupted (not issued by the server)."))
    ∧ (t1 + 60 * tokenExpirationTimeInMin < t2 →
      jwtAuthenticationHandler env
          (generateJWTString env (generateJWTString env st t1 u o).1 t2 u o).1
          t2 path skipPref
          ("Bearer " ++ (generateJWTString env st t1 u o).2.1)
        = .reject (newAccessForbiddenError "Malformed authentication token.")) := by
  have hts := signJWT_no_space env.tokenPassword
    ⟨u, o, ⟨t1, t1 + 60 * tokenExpirationTimeInMin⟩⟩
  constructor
  · intro hlt hwin
    rw [show (generateJWTString env st t1 u o).2.1
        = signJWT env.tokenPassword ⟨u, o, ⟨t1, t1 + 60 * tokenExpirationTimeInMin⟩⟩ from rfl,
      jwtAuth_bearer env _ t2 path skipPref _ hskip hts,
      parseWithClaims_signJWT env.tokenPassword _ t2
        (stdClaimsValid_fresh t1 t2 (Nat.le_of_lt hlt) hwin)]
    have hget : redisGet (generateJWTString env (generateJWTString env st t1 u o).1 t2 u o).1
        (u ++ "|" ++ o) t2
        = some (signJWT env.tokenPassword ⟨u, o, ⟨t2, t2 + 60 * tokenExpirationTimeInMin⟩⟩) := by
      apply redisGet_set_same
      simp [tokenExpirationTimeInMin]
    simp only [hget]
    have hne2 : signJWT env.tokenPassword ⟨u, o, ⟨t2, t2 + 60 * tokenExpirationTimeInMin⟩⟩
        ≠ signJWT env.tokenPassword ⟨u, o, ⟨t1, t1 + 60 * tokenExpirationTimeInMin⟩⟩ := by
      intro h
      have h2 := signJWT_inj h
      have h3 : t2 = t1 := congrArg (fun tk => tk.std.issuedAt) h2
      omega
    simp [hne2]
  · intro hlate
    rw [show (generateJWTString env st t1 u o).2.1
        = signJWT env.tokenPassword ⟨u, o, ⟨t1, t1 + 60 * tokenExpirationTimeInMin⟩⟩ from rfl,
      jwtAuth_bearer env _ t2 path skipPref _ hskip hts,
      parseWithClaims_signJWT_not_valid env.tokenPassword _ t2
        (stdClaimsValid_expired t1 t2 hlate)]

theorem issue_twice_revokes_first_witness :
    jwtAuthenticationHandler ⟨"k", false⟩
        (generateJWTString ⟨"k", false⟩ (generateJWTString ⟨"k", false⟩ redisEmpty 5 "u" "o").1
          6 "u" "o").1
        6 "/api/x" "/skip"
        ("Bearer " ++ (generateJWTString ⟨"k", false⟩ redisEmpty 5 "u" "o").2.1)
      = .reject (newAccessForbiddenError "Token is corrupted (not issued by the server).") :=
  (issue_twice_revokes_first ⟨"k", false⟩ redisEmpty 5 6 "u" "o" "/api/x" "/skip"
    (by decide)).1 (by decide) (by decide)

/-! ### Claim C3 -/

theorem length_eq_two_split {l : List (List Char)} (h : l.length = 2) :
    ∃ a b, l = [a, b] := by
  match l, h with
  | [a, b], _ => exact ⟨a, b, rfl⟩

/-- Evaluation of the gate once the header splits into exactly two parts. -/
theorem jwtAuth_eval2 (env : Env) (st : RedisState) (now : Nat)
    (path skipPref hdr : String) (a b : List Char)
    (hskip : strHasPref path skipPref = false) (h1 : hdr ≠ "")
    (hsplit : splitOnChar ' ' hdr.data = [a, b]) :
    jwtAuthenticationHandler env st now path skipPref hdr =
      match parseWithClaims env.tokenPassword ⟨b⟩ now with
      | none => .reject (newAccessForbiddenError "Malformed authentication token.")
      | some tk =>
        match redisGet st (tk.userUUID ++ "|" ++ tk.organisationUUID) now with
        | none =>
          .reject (newAccessForbiddenError "Token is not valid (not issued by the server).")
        | some v =>
          if v ≠ (⟨b⟩ : String) then
            .reject (newAccessForbiddenError "Token is corrupted (not issued by the server).")
          else .proceed tk := by
  simp only [jwtAuthenticationHandler, hskip, Bool.false_eq_true, if_false, if_neg h1, hsplit]
  simp [List.getD]

/-- C3: on a protected (non-skipped) path the gate rejects with the
missing-token error when the Authorization header is absent (empty), with
the malformed-token error when the header does not split into exactly two
space-separated parts, with the signature/claims parse error when
jwt.ParseWithClaims fails at the request instant (a bad signature, or the
library's time-claims validation failing on an expired or future-issued
token), and, after parse success, with the revoked/unknown-token errors
when the store entry under user_id|organisation_id is missing or its value
is not byte-for-byte equal to the presented token part; the request reaches
the wrapped handler only when all checks pass. -/
theorem validation_gate_cases (env : Env) (st : RedisState) (now : Nat)
    (path skipPref hdr : String) (hskip : strHasPref path skipPref = false) :
    (hdr = "" → jwtAuthenticationHandler env st now path skipPref hdr
      = .reject (newAccessForbiddenError "Missing auth token."))
    ∧ (hdr ≠ "" → (splitOnChar ' ' hdr.data).length ≠ 2 →
      jwtAuthenticationHandler env st now path skipPref hdr
        = .reject (newAccessForbiddenError "Invalid/Malformed auth token."))
    ∧ (∀ a b, hdr ≠ "" → splitOnChar ' ' hdr.data = [a, b] →
      parseWithClaims env.tokenPassword ⟨b⟩ now = none →
      jwtAuthenticationHandler env st now path skipPref hdr
        = .reject (newAccessForbiddenError "Malformed authentication token."))
    ∧ (∀ a b tk, hdr ≠ "" → splitOnChar ' ' hdr.data = [a, b] →
      parseWithClaims env.tokenPassword ⟨b⟩ now = some tk →
      redisGet st (tk.userUUID ++ "|" ++ tk.organisationUUID) now = none →
      jwtAuthenticationHandler env st now path skipPref hdr
        = .reject (newAccessForbiddenError "Token is not valid (not issued by the server)."))
    ∧ (∀ a b tk v, hdr ≠ "" → splitOnChar ' ' hdr.data = [a, b] →
      parseWithClaims env.tokenPassword ⟨b⟩ now = some tk →
      redisGet st (tk.userUUID ++ "|" ++ tk.organisationUUID) now = some v →
      v ≠ (⟨b⟩ : String) →
      jwtAuthenticationHandler env st now path skipPref hdr
        = .reject (newAccessForbiddenError "Token is corrupted (not issued by the server)."))
    ∧ (∀ tk, jwtAuthenticationHandler env st now path skipPref hdr = .proceed tk →
      hdr ≠ "" ∧ ∃ a b, splitOnChar ' ' hdr.data = [a, b]
      ∧ parseWithClaims env.tokenPassword ⟨b⟩ now = some tk
      ∧ redisGet st (tk.userUUID ++ "|" ++ tk.organisationUUID) now = some ⟨b⟩) := by
  refine ⟨?_, ?_, ?_, ?_, ?_, ?_⟩
  · intro h1
    simp [jwtAuthenticationHandler, hskip, h1]
  · intro h1 h2
    simp [jwtAuthenticationHandler, hskip, h1, h2]
  · intro a b h1 hsplit h3
    rw [jwtAuth_eval2 env st now path skipPref hdr a b hskip h1 hsplit, h3]
  · intro a b tk h1 hsplit h3 h4
    rw [jwtAuth_eval2 env st now path skipPref hdr a b hskip h1 hsplit, h3]
    simp only [h4]
  · intro a b tk v h1 hsplit h3 h4 h5
    rw [jwtAuth_eval2 env st now path skipPref hdr a b hskip h1 hsplit, h3]
    simp only [h4]
    simp [h5]
  · intro tk hp
    by_cases h1 : hdr = ""
    · simp [jwtAuthenticationHandler, hskip, h1] at hp
    by_cases h2 : (splitOnChar ' ' hdr.data).length = 2
    case neg => simp [jwtAuthenticationHandler, hskip, h1, h2] at hp
    obtain ⟨a, b, hsplit⟩ := length_eq_two_split h2
    rw [jwtAuth_eval2 env st now path skipPref hdr a b hskip h1 hsplit] at hp
    refine ⟨h1, a, b, hsplit, ?_⟩
    cases h3 : parseWithClaims env.tokenPassword ⟨b⟩ now with
    | none => rw [h3] at hp; exact absurd hp (by simp)
    | some tk2 =>
      rw [h3] at hp
      cases h4 : redisGet st (tk2.userUUID ++ "|" ++ tk2.organisationUUID) now with
      | none => simp only [h4] at hp; exact absurd hp (by simp)
      | some v =>
        simp only [h4] at hp
        by_cases h5 : v = (⟨b⟩ : String)
        · rw [if_neg (by simp [h5])] at hp
          have htk : tk2 = tk := by
            cases hp
            rfl
          subst htk
          subst h5
          exact ⟨rfl, h4⟩
        · rw [if_pos h5] at hp
          exact absurd hp (by simp)

theorem validation_gate_cases_witness :
    jwtAuthenticationHandler ⟨"k", false⟩ redisEmpty 0 "/api/x" "/skip" ""
      = .reject (newAccessForbiddenError "Missing auth token.") :=
  (validation_gate_cases ⟨"k", false⟩ redisEmpty 0 "/api/x" "/skip" "" (by decide)).1 rfl

/-! ### Identity directory model (models/users.go, models/organisation.go) -/

def UserStatusUnverified : String := "unverified"
def UserStatusVerified : String := "active"
def UserRoleAdmin : String := "admin"
def UserRoleUser : String := "regular-p2p-user"

def OrganisationUserStatusInvited : String := "invited"
def OrganisationUserStatusUnverified : String := "unverified"
def OrganisationUserStatusActive : String := "active"
def OrganisationRoleAdmin : String := "admin"
def OrganisationRoleUser : String := "user"

/-- models.Contact, restricted to the fields the auth code reads. -/
structure DbContact where
  value1 : String
  value2 : String
deriving DecidableEq, Repr

/-- models.User, restricted to the fields the auth code reads. -/
structure DbUser where
  id : String
  role : String
  status : String
  loginEmail : Option DbContact
  loginPhone : Option DbContact
  loginWebAuthn : String
deriving DecidableEq, Repr

/-- models.OrganisationUser (the membership record). -/
structure OrgUser where
  id : String
  organisationID : String
  userID : String
  organisationRole : String
  isHome : Bool
  status : String
deriving DecidableEq, Repr

/-- The relational store: the user table and the organisation_user table,
in row order (gorm queries without ORDER BY return rows in this order). -/
structure DB where
  users : List DbUser
  orgUsers : List OrgUser
deriving DecidableEq, Repr

def emptyDbUser : DbUser := ⟨"", "", "", none, none, ""⟩

def emptyOrgUser : OrgUser := ⟨"", "", "", "", false, ""⟩

/-- Go strings.TrimSpace (on the whitespace classes Lean knows). -/
def trimSpace (s : String) : String :=
  ⟨((s.data.dropWhile Char.isWhitespace).reverse.dropWhile Char.isWhitespace).reverse⟩

/-- gorm Where(struct) semantics for OrganisationUser queries: zero-valued
fields of the query struct are ignored. -/
def gormMatchOrgUser (q ou : OrgUser) : Bool :=
  decide ((q.id = "" ∨ ou.id = q.id)
    ∧ (q.organisationID = "" ∨ ou.organisationID = q.organisationID)
    ∧ (q.userID = "" ∨ ou.userID = q.userID)
    ∧ (q.organisationRole = "" ∨ ou.organisationRole = q.organisationRole)
    ∧ (q.isHome = false ∨ ou.isHome = q.isHome)
    ∧ (q.status = "" ∨ ou.status = q.status))

/-- models.GetUser: trims the UUID, requires it non-empty, and returns the
first matching row; on failure the returned record stays the zero User
value, mirroring the Go out-parameter. -/
def getUser (db : DB) (uuid : String) : DbUser × Option APIError :=
  let trimmed := trimSpace uuid
  if trimmed.data.length = 0 then
    (emptyDbUser, some (newRequiredFieldError ["uuid"]))
  else
    match db.users.find? (fun u => u.id = trimmed) with
    | some u => (u, none)
    | none => (emptyDbUser, some (newUserDoesntExistError "User with provided uuid doesn't exist"))

/-- models.GetUserRole. -/
def getUserRole (db : DB) (userUUID : String) : String × Option APIError :=
  if userUUID.data.length = 0 then ("", some (newInvalidFieldError "user_id" "UserID is invalid"))
  else
    match getUser db userUUID with
    | (_, some e) => ("", some e)
    | (u, none) => (u.role, none)

/-- OrganisationUser.Find: gorm First on a Where(struct) query. -/
def orgUserFind (db : DB) (q : OrgUser) : Option OrgUser :=
  db.orgUsers.find? (gormMatchOrgUser q)

/-- gorm Save on an OrganisationUser row: replace the row carrying the same
primary key. -/
def updateOrgUserDB (db : DB) (ou : OrgUser) : DB :=
  { db with orgUsers := db.orgUsers.map (fun x => if x.id = ou.id then ou else x) }

/-- gorm Save on a User row. -/
def updateUserDB (db : DB) (u : DbUser) : DB :=
  { db with users := db.users.map (fun x => if x.id = u.id then u else x) }

/-- The active-admin query of verifyOrganisationUserAndReturnHome: First on
Where(struct {OrganisationID, OrganisationRole: admin, Status: active}). -/
def findActiveAdmin (db : DB) (orgID : String) : Option OrgUser :=
  orgUserFind db { emptyOrgUser with
    organisationID := orgID, organisationRole := OrganisationRoleAdmin,
    status := OrganisationUserStatusActive }

/-- The role decided for a membership being activated: regular user when
the organisation has an active admin in the current database, admin
otherwise (the RecordNotFound branch of the loop). -/
def actRole (db : DB) (orgID : String) : String :=
  match findActiveAdmin db orgID with
  | some _ => OrganisationRoleUser
  | none => OrganisationRoleAdmin

/-- The row written back when a membership is activated. -/
def actRec (db : DB) (ou : OrgUser) : OrgUser :=
  { ou with
    status := OrganisationUserStatusActive
    organisationRole := actRole db ou.organisationID }

/-- The activation loop of verifyOrganisationUserAndReturnHome: for each
membership, look up an active admin of its organisation in the current
database, and if the membership status is unverified set it to active with
the decided role, writing the row back.  The returned list carries the
final in-memory structs (the Go code iterates over pointers). -/
def activateOrgUsers (db : DB) : List OrgUser → DB × List OrgUser
  | [] => (db, [])
  | ou :: rest =>
    if ou.status = OrganisationUserStatusUnverified then
      let ou2 := actRec db ou
      let db2 := updateOrgUserDB db ou2
      let res := activateOrgUsers db2 rest
      (res.1, ou2 :: res.2)
    else
      let res := activateOrgUsers db rest
      (res.1, ou :: res.2)

/-- verifyOrganisationUserAndReturnHome: loads the user's memberships,
selects (or elects) the home membership, activates unverified memberships
deciding their role, marks the user verified, and returns the home
membership (the final in-memory struct, since the Go caller holds a
pointer aliased into the loop). -/
def verifyOrganisationUserAndReturnHome (db : DB) (user : DbUser) :
    DB × OrgUser × DbUser :=
  let orgUsers := db.orgUsers.filter (fun ou => ou.userID = user.id)
  let step1 : DB × List OrgUser × Option Nat :=
    if orgUsers.isEmpty then (db, orgUsers, none)
    else
      let preHome := (orgUsers.find? (fun ou => ou.isHome)).getD emptyOrgUser
      if preHome.id = "" then
        match orgUsers with
        | [] => (db, orgUsers, none)
        | first :: rest =>
          let first2 := { first with isHome := true }
          (updateOrgUserDB db first2, first2 :: rest, some 0)
      else (db, orgUsers, orgUsers.findIdx? (fun ou => ou.isHome))
  let step2 := activateOrgUsers step1.1 step1.2.1
  let home :=
    match step1.2.2 with
    | some i => step2.2.getD i emptyOrgUser
    | none => emptyOrgUser
  if user.status ≠ UserStatusVerified then
    let user2 := { user with status := UserStatusVerified }
    (updateUserDB step2.1 user2, home, user2)
  else
    (step2.1, home, user)

/-! ### Lemmas about the membership tables -/

/-- The fields of a membership row that the activation loop never writes. -/
def skel (x : OrgUser) : String × String × String × Bool :=
  (x.id, x.userID, x.organisationID, x.isHome)

theorem mem_id_unique {l : List OrgUser} (hn : (l.map (fun z => z.id)).Nodup)
    {x y : OrgUser} (hx : x ∈ l) (hy : y ∈ l) (h : x.id = y.id) : x = y :=
  List.inj_on_of_nodup_map hn hx hy h

theorem updateOrgUserDB_orgUsers (db : DB) (ou : OrgUser) :
    (updateOrgUserDB db ou).orgUsers
      = db.orgUsers.map (fun x => if x.id = ou.id then ou else x) := rfl

theorem mem_updateOrgUserDB (db : DB) (ou : OrgUser) {x : OrgUser}
    (hx : x ∈ (updateOrgUserDB db ou).orgUsers) :
    ∃ y ∈ db.orgUsers, x = if y.id = ou.id then ou else y := by
  rcases List.mem_map.mp hx with ⟨y, hy, h⟩
  exact ⟨y, hy, h.symm⟩

theorem mem_updateOrgUserDB_of_ne (db : DB) (ou : OrgUser) {x : OrgUser}
    (hx : x ∈ db.orgUsers) (hne : x.id ≠ ou.id) :
    x ∈ (updateOrgUserDB db ou).orgUsers := by
  rw [updateOrgUserDB_orgUsers]
  refine List.mem_map.mpr ⟨x, hx, ?_⟩
  rw [if_neg hne]

theorem self_mem_updateOrgUserDB (db : DB) (ou y : OrgUser)
    (hy : y ∈ db.orgUsers) (hid : y.id = ou.id) :
    ou ∈ (updateOrgUserDB db ou).orgUsers := by
  rw [updateOrgUserDB_orgUsers]
  refine List.mem_map.mpr ⟨y, hy, ?_⟩
  rw [if_pos hid]

theorem updateOrgUserDB_map_id (db : DB) (ou : OrgUser) :
    (updateOrgUserDB db ou).orgUsers.map (fun z => z.id)
      = db.orgUsers.map (fun z => z.id) := by
  rw [updateOrgUserDB_orgUsers, List.map_map]
  apply List.map_congr_left
  intro x _
  simp only [Function.comp_apply]
  by_cases h : x.id = ou.id
  · simp [h]
  · simp [h]

theorem updateOrgUserDB_map_skel (db : DB) (ou y : OrgUser)
    (hy : y ∈ db.orgUsers) (hid : ou.id = y.id) (hsk : skel ou = skel y)
    (hnodup : (db.orgUsers.map (fun z => z.id)).Nodup) :
    (updateOrgUserDB db ou).orgUsers.map skel = db.orgUsers.map skel := by
  rw [updateOrgUserDB_orgUsers, List.map_map]
  apply List.map_congr_left
  intro x hx
  simp only [Function.comp_apply]
  by_cases h : x.id = ou.id
  · rw [if_pos h]
    have hxy : x = y := mem_id_unique hnodup hx hy (h.trans hid)
    rw [hsk, hxy]
  · rw [if_neg h]

theorem actRec_id (db : DB) (ou : OrgUser) : (actRec db ou).id = ou.id := rfl

theorem actRec_skel (db : DB) (ou : OrgUser) : skel (actRec db ou) = skel ou := rfl

/-- Membership characterisation of the rows after the activation loop:
every row either was already present, or is one of the loop's memberships
written back with status active. -/
theorem activateOrgUsers_mem (lst : List OrgUser) : ∀ (db : DB),
    ∀ x ∈ ((activateOrgUsers db lst).1).orgUsers,
      x ∈ db.orgUsers
      ∨ ∃ ou ∈ lst, ou.status = OrganisationUserStatusUnverified
          ∧ ∃ d, x = actRec d ou := by
  induction lst with
  | nil => intro db x hx; exact Or.inl hx
  | cons ou rest ih =>
    intro db x hx
    by_cases hst : ou.status = OrganisationUserStatusUnverified
    · simp only [activateOrgUsers, if_pos hst] at hx
      rcases ih _ x hx with hmem | ⟨ou3, h1, h2, d, h3⟩
      · rcases mem_updateOrgUserDB _ _ hmem with ⟨y, hy, hxy⟩
        by_cases hid : y.id = (actRec db ou).id
        · rw [hxy, if_pos hid]
          exact Or.inr ⟨ou, by simp, hst, db, rfl⟩
        · rw [hxy, if_neg hid]
          exact Or.inl hy
      · exact Or.inr ⟨ou3, by simp [h1], h2, d, h3⟩
    · simp only [activateOrgUsers, if_neg hst] at hx
      rcases ih db x hx with hmem | ⟨ou3, h1, h2, d, h3⟩
      · exact Or.inl hmem
      · exact Or.inr ⟨ou3, by simp [h1], h2, d, h3⟩

/-- The activation loop never changes the id, userID, organisationID or
is_home fields of any row, provided the loop's memberships are rows of the
database with pairwise distinct primary keys. -/
theorem activateOrgUsers_map_skel (lst : List OrgUser) : ∀ (db : DB),
    (db.orgUsers.map (fun z => z.id)).Nodup →
    (∀ ou ∈ lst, ou ∈ db.orgUsers) →
    (lst.map (fun z => z.id)).Nodup →
    ((activateOrgUsers db lst).1).orgUsers.map skel = db.orgUsers.map skel := by
  induction lst with
  | nil => intro db _ _ _; rfl
  | cons ou rest ih =>
    intro db hdb hsub hlst
    simp only [List.map_cons, List.nodup_cons] at hlst
    by_cases hst : ou.status = OrganisationUserStatusUnverified
    · simp only [activateOrgUsers, if_pos hst]
      have hou : ou ∈ db.orgUsers := hsub ou (by simp)
      have hupd := updateOrgUserDB_map_skel db (actRec db ou) ou hou (actRec_id db ou)
        (actRec_skel db ou) hdb
      have hdb2 : ((updateOrgUserDB db (actRec db ou)).orgUsers.map (fun z => z.id)).Nodup := by
        rw [updateOrgUserDB_map_id]
        exact hdb
      have hsub2 : ∀ o2 ∈ rest, o2 ∈ (updateOrgUserDB db (actRec db ou)).orgUsers := by
        intro o2 ho2
        apply mem_updateOrgUserDB_of_ne db _ (hsub o2 (by simp [ho2]))
        intro hid
        have hid2 : o2.id = ou.id := hid
        exact hlst.1 (hid2 ▸ List.mem_map_of_mem (fun z => z.id) ho2)
      rw [ih _ hdb2 hsub2 hlst.2, hupd]
    · simp only [activateOrgUsers, if_neg hst]
      exact ih db hdb (fun o2 ho2 => hsub o2 (by simp [ho2])) hlst.2

theorem updateUserDB_orgUsers (db : DB) (u2 : DbUser) :
    (updateUserDB db u2).orgUsers = db.orgUsers := rfl

theorem ite_resolver_orgUsers (P : Prop) [Decidable P] (s : DB) (h : OrgUser)
    (u1 u2 : DbUser) :
    ((if P then (updateUserDB s u1, h, u1) else (s, h, u2)).1).orgUsers = s.orgUsers := by
  split
  · rfl
  · rfl

theorem countP_id_eq_one {l : List OrgUser} (hn : (l.map (fun z => z.id)).Nodup)
    {y : OrgUser} (hy : y ∈ l) : l.countP (fun x => decide (x.id = y.id)) = 1 := by
  induction l with
  | nil => cases hy
  | cons a as ih =>
    simp only [List.map_cons, List.nodup_cons] at hn
    rcases List.mem_cons.mp hy with heq | hy2
    · rw [List.countP_cons]
      have hz : as.countP (fun x => decide (x.id = y.id)) = 0 := by
        rw [List.countP_eq_zero]
        intro x hx
        simp only [decide_eq_true_eq]
        intro hxy
        have hxa : x.id = a.id := by rw [hxy, heq]
        exact hn.1 (hxa ▸ List.mem_map_of_mem (fun z => z.id) hx)
      rw [hz]
      simp [heq]
    · have ha : decide (a.id = y.id) ≠ true := by
        intro hay
        have hay2 : a.id = y.id := of_decide_eq_true hay
        exact hn.1 (hay2 ▸ List.mem_map_of_mem (fun z => z.id) hy2)
      rw [List.countP_cons, ih hn.2 hy2]
      simp [ha]

theorem filter_map_of_map_eq {α β γ : Type _} (g : α → β) (qh : β → Bool) (fh : β → γ) :
    ∀ l1 l2 : List α, l1.map g = l2.map g →
      (l1.filter (fun x => qh (g x))).map (fun x => fh (g x))
        = (l2.filter (fun x => qh (g x))).map (fun x => fh (g x)) := by
  intro l1
  induction l1 with
  | nil =>
    intro l2 h
    cases l2 with
    | nil => rfl
    | cons b bs => simp at h
  | cons a as ih =>
    intro l2 h
    cases l2 with
    | nil => simp at h
    | cons b bs =>
      simp only [List.map_cons, List.cons.injEq] at h
      obtain ⟨h1, h2⟩ := h
      by_cases hq : qh (g a) = true
      · have hqb : qh (g b) = true := by rwa [h1] at hq
        rw [List.filter_cons, List.filter_cons, if_pos hq, if_pos hqb,
          List.map_cons, List.map_cons, ih bs h2, h1]
      · have hqb : ¬ qh (g b) = true := by rwa [h1] at hq
        rw [List.filter_cons, List.filter_cons, if_neg hq, if_neg hqb]
        exact ih bs h2

/-- When the user has memberships and none carries is_home, the resolver
flips is_home on the first membership, writes it back, and then runs the
activation loop over the aliased list. -/
theorem resolver_noHome_orgUsers (db : DB) (u : DbUser) (first : OrgUser)
    (rest : List OrgUser)
    (hlst : db.orgUsers.filter (fun ou => ou.userID = u.id) = first :: rest)
    (hfind : (first :: rest).find? (fun ou => ou.isHome) = none) :
    (verifyOrganisationUserAndReturnHome db u).1.orgUsers
      = (activateOrgUsers (updateOrgUserDB db { first with isHome := true })
          ({ first with isHome := true } :: rest)).1.orgUsers := by
  simp only [verifyOrganisationUserAndReturnHome, hlst, hfind, List.isEmpty_cons,
    Bool.false_eq_true, if_false, Option.getD_none, emptyOrgUser]
  rw [ite_resolver_orgUsers]
  simp

/-! ### Claim C4 -/

/-- C4 (amended): for every user with at least one membership and none with
is_home set, after verifyOrganisationUserAndReturnHome runs once, exactly
one of the user's memberships has is_home = true, and the identities of the
user's memberships are unchanged (none added or removed).  DB wellformedness
(distinct membership primary keys) is assumed. -/
theorem membership_resolver_home (db : DB) (u : DbUser)
    (hnodup : (db.orgUsers.map (fun z => z.id)).Nodup)
    (hne : db.orgUsers.filter (fun ou => ou.userID = u.id) ≠ [])
    (hnohome : ∀ ou ∈ db.orgUsers.filter (fun ou => ou.userID = u.id), ou.isHome = false) :
    ((verifyOrganisationUserAndReturnHome db u).1.orgUsers.countP
        (fun x => decide (x.userID = u.id) && x.isHome)) = 1
    ∧ ((verifyOrganisationUserAndReturnHome db u).1.orgUsers.filter
        (fun x => x.userID = u.id)).map (fun x => x.id)
      = (db.orgUsers.filter (fun x => x.userID = u.id)).map (fun x => x.id) := by
  cases hlst : db.orgUsers.filter (fun ou => ou.userID = u.id) with
  | nil => exact absurd hlst hne
  | cons first rest =>
    have hsubfil : ∀ x ∈ first :: rest, x ∈ db.orgUsers := by
      intro x hx
      rw [← hlst] at hx
      exact List.mem_of_mem_filter hx
    have hfirstdb : first ∈ db.orgUsers := hsubfil first (by simp)
    have hfirstuid : first.userID = u.id := by
      have hmem : first ∈ db.orgUsers.filter (fun ou => ou.userID = u.id) := by
        rw [hlst]
        simp
      exact of_decide_eq_true (List.mem_filter.mp hmem).2
    have hfilnodup : ((first :: rest).map (fun z => z.id)).Nodup := by
      have hsl : (first :: rest).Sublist db.orgUsers := by
        rw [← hlst]
        exact List.filter_sublist db.orgUsers
      exact hnodup.sublist (hsl.map (fun z => z.id))
    have hfind : (first :: rest).find? (fun ou => ou.isHome) = none := by
      apply List.find?_eq_none.mpr
      intro x hx
      have hxf : x ∈ db.orgUsers.filter (fun ou => ou.userID = u.id) := by
        rw [hlst]
        exact hx
      simp [hnohome x hxf]
    have horg := resolver_noHome_orgUsers db u first rest hlst hfind
    have hdb1nodup :
        ((updateOrgUserDB db { first with isHome := true }).orgUsers.map
          (fun z => z.id)).Nodup := by
      rw [updateOrgUserDB_map_id]
      exact hnodup
    have hfirst2mem : ({ first with isHome := true } : OrgUser)
        ∈ (updateOrgUserDB db { first with isHome := true }).orgUsers :=
      self_mem_updateOrgUserDB db _ first hfirstdb rfl
    have hfn := hfilnodup
    simp only [List.map_cons, List.nodup_cons] at hfn
    have hsub1 : ∀ ou ∈ ({ first with isHome := true } : OrgUser) :: rest,
        ou ∈ (updateOrgUserDB db { first with isHome := true }).orgUsers := by
      intro ou hou
      rcases List.mem_cons.mp hou with heq | hou2
      · rw [heq]
        exact hfirst2mem
      · apply mem_updateOrgUserDB_of_ne db _ (hsubfil ou (by simp [hou2]))
        intro hid
        exact hfn.1 (hid ▸ List.mem_map_of_mem (fun z => z.id) hou2)
    have hlst1nodup : ((({ first with isHome := true } : OrgUser) :: rest).map
        (fun z => z.id)).Nodup := hfilnodup
    have hskel := activateOrgUsers_map_skel (({ first with isHome := true } : OrgUser) :: rest)
      (updateOrgUserDB db { first with isHome := true }) hdb1nodup hsub1 hlst1nodup
    constructor
    · rw [horg]
      have e1 := List.countP_map
        (fun s : String × String × String × Bool => decide (s.2.1 = u.id) && s.2.2.2) skel
        (l := ((activateOrgUsers (updateOrgUserDB db { first with isHome := true })
          (({ first with isHome := true } : OrgUser) :: rest)).1).orgUsers)
      have e2 := List.countP_map
        (fun s : String × String × String × Bool => decide (s.2.1 = u.id) && s.2.2.2) skel
        (l := (updateOrgUserDB db { first with isHome := true }).orgUsers)
      rw [hskel] at e1
      have h1 : ((activateOrgUsers (updateOrgUserDB db { first with isHome := true })
          (({ first with isHome := true } : OrgUser) :: rest)).1).orgUsers.countP
            (fun x => decide (x.userID = u.id) && x.isHome)
          = (updateOrgUserDB db { first with isHome := true }).orgUsers.countP
            (fun x => decide (x.userID = u.id) && x.isHome) :=
        e1.symm.trans e2
      rw [h1, updateOrgUserDB_orgUsers, List.countP_map]
      have h2 : db.orgUsers.countP
          ((fun x => decide (x.userID = u.id) && x.isHome)
            ∘ (fun x => if x.id = ({ first with isHome := true } : OrgUser).id
                then { first with isHome := true } else x))
          = db.orgUsers.countP (fun x => decide (x.id = first.id)) := by
        apply List.countP_congr
        intro x hx
        simp only [Function.comp_apply]
        by_cases hid : x.id = first.id
        · rw [if_pos hid]
          simp [hfirstuid, hid]
        · rw [if_neg hid]
          by_cases huid : x.userID = u.id
          · have hxin : x ∈ db.orgUsers.filter (fun ou => ou.userID = u.id) :=
              List.mem_filter.mpr ⟨hx, by simp [huid]⟩
            have hxh : x.isHome = false := hnohome x hxin
            simp [hxh, hid]
          · simp [huid, hid]
      rw [h2]
      exact countP_id_eq_one hnodup hfirstdb
    · rw [horg]
      have e1 := filter_map_of_map_eq skel
        (fun s => decide (s.2.1 = u.id)) (fun s => s.1) _ _ hskel
      have hg2 : (updateOrgUserDB db { first with isHome := true }).orgUsers.map
            (fun x => (x.id, x.userID))
          = db.orgUsers.map (fun x => (x.id, x.userID)) := by
        rw [updateOrgUserDB_orgUsers, List.map_map]
        apply List.map_congr_left
        intro x hx
        simp only [Function.comp_apply]
        by_cases hid : x.id = first.id
        · rw [if_pos hid]
          have hxf : x = first := mem_id_unique hnodup hx hfirstdb hid
          rw [hxf]
        · rw [if_neg hid]
      have e2 := filter_map_of_map_eq (fun x : OrgUser => (x.id, x.userID))
        (fun s => decide (s.2 = u.id)) (fun s => s.1) _ _ hg2
      have e1' : (((activateOrgUsers (updateOrgUserDB db { first with isHome := true })
            (({ first with isHome := true } : OrgUser) :: rest)).1).orgUsers.filter
              (fun x => decide (x.userID = u.id))).map (fun x => x.id)
          = ((updateOrgUserDB db { first with isHome := true }).orgUsers.filter
              (fun x => decide (x.userID = u.id))).map (fun x => x.id) := e1
      have e2' : ((updateOrgUserDB db { first with isHome := true }).orgUsers.filter
              (fun x => decide (x.userID = u.id))).map (fun x => x.id)
          = (db.orgUsers.filter (fun x => decide (x.userID = u.id))).map
              (fun x => x.id) := e2
      rw [e1', e2', hlst]

theorem membership_resolver_home_witness :
    ((verifyOrganisationUserAndReturnHome
        ⟨[⟨"u1", "regular-p2p-user", "unverified", none, none, ""⟩],
          [⟨"m1", "org1", "u1", "user", false, "unverified"⟩]⟩
        ⟨"u1", "regular-p2p-user", "unverified", none, none, ""⟩).1.orgUsers.countP
      (fun x => decide (x.userID = "u1") && x.isHome)) = 1
    ∧ ((verifyOrganisationUserAndReturnHome
        ⟨[⟨"u1", "regular-p2p-user", "unverified", none, none, ""⟩],
          [⟨"m1", "org1", "u1", "user", false, "unverified"⟩]⟩
        ⟨"u1", "regular-p2p-user", "unverified", none, none, ""⟩).1.orgUsers.filter
          (fun x => x.userID = "u1")).map (fun x => x.id)
      = (([⟨"m1", "org1", "u1", "user", false, "unverified"⟩] : List OrgUser).filter
          (fun x => x.userID = "u1")).map (fun x => x.id) :=
  membership_resolver_home
    ⟨[⟨"u1", "regular-p2p-user", "unverified", none, none, ""⟩],
      [⟨"m1", "org1", "u1", "user", false, "unverified"⟩]⟩
    ⟨"u1", "regular-p2p-user", "unverified", none, none, ""⟩
    (by decide) (by decide) (by decide)

/-- C4 counterexample: a user with no memberships at all vacuously has no
is_home membership, yet after the resolver runs once there is still no
membership with is_home = true (the claim asserts exactly one). -/
theorem membership_resolver_no_membership :
    ((verifyOrganisationUserAndReturnHome
        ⟨[⟨"u1", "regular-p2p-user", "unverified", none, none, ""⟩], []⟩
        ⟨"u1", "regular-p2p-user", "unverified", none, none, ""⟩).1.orgUsers.countP
      (fun x => decide (x.userID = "u1") && x.isHome)) = 0 := by
  decide

/-- The resolver when the user has no memberships: the membership table is
untouched. -/
theorem resolver_empty_orgUsers (db : DB) (u : DbUser)
    (hlst : db.orgUsers.filter (fun ou => ou.userID = u.id) = []) :
    (verifyOrganisationUserAndReturnHome db u).1.orgUsers = db.orgUsers := by
  simp only [verifyOrganisationUserAndReturnHome, hlst, List.isEmpty_nil, if_true]
  rw [ite_resolver_orgUsers]
  rfl

/-- The resolver when a home membership with a non-empty id is found: no
flip happens, the loop runs over the loaded list. -/
theorem resolver_home_orgUsers (db : DB) (u : DbUser) (first : OrgUser)
    (rest : List OrgUser) (h0 : OrgUser)
    (hlst : db.orgUsers.filter (fun ou => ou.userID = u.id) = first :: rest)
    (hfind : (first :: rest).find? (fun ou => ou.isHome) = some h0)
    (hid : h0.id ≠ "") :
    (verifyOrganisationUserAndReturnHome db u).1.orgUsers
      = (activateOrgUsers db (first :: rest)).1.orgUsers := by
  simp only [verifyOrganisationUserAndReturnHome, hlst, hfind, List.isEmpty_cons,
    Bool.false_eq_true, if_false, Option.getD_some, if_neg hid]
  rw [ite_resolver_orgUsers]

/-! ### Claim C8 -/

theorem status_invited_ne_unverified :
    OrganisationUserStatusInvited ≠ OrganisationUserStatusUnverified := by
  simp [OrganisationUserStatusInvited, OrganisationUserStatusUnverified]

/-- C8: a membership with status invited is never moved to active by the
sign-in resolver; only memberships with status unverified are activated.
After any run of verifyOrganisationUserAndReturnHome, every row carrying
the id of an invited membership still has status invited. -/
theorem invited_never_auto_activated (db : DB) (u : DbUser)
    (hnodup : (db.orgUsers.map (fun z => z.id)).Nodup) :
    ∀ r ∈ db.orgUsers, r.status = OrganisationUserStatusInvited →
    ∀ x ∈ (verifyOrganisationUserAndReturnHome db u).1.orgUsers, x.id = r.id →
      x.status = OrganisationUserStatusInvited := by
  intro r hr hrinv x hx hxid
  cases hlst : db.orgUsers.filter (fun ou => ou.userID = u.id) with
  | nil =>
    rw [resolver_empty_orgUsers db u hlst] at hx
    rw [mem_id_unique hnodup hx hr hxid]
    exact hrinv
  | cons first rest =>
    have hsubfil : ∀ z ∈ first :: rest, z ∈ db.orgUsers := by
      intro z hz
      rw [← hlst] at hz
      exact List.mem_of_mem_filter hz
    have hfirstdb : first ∈ db.orgUsers := hsubfil first (by simp)
    cases hfind : (first :: rest).find? (fun ou => ou.isHome) with
    | none =>
      rw [resolver_noHome_orgUsers db u first rest hlst hfind] at hx
      rcases activateOrgUsers_mem _ _ x hx with hmem | ⟨ou, hou, houst, d, hact⟩
      · rcases mem_updateOrgUserDB _ _ hmem with ⟨y, hy, hxy⟩
        by_cases hyid : y.id = ({ first with isHome := true } : OrgUser).id
        · rw [hxy, if_pos hyid] at hxid ⊢
          have hfr : first = r := mem_id_unique hnodup hfirstdb hr hxid
          rw [← hfr] at hrinv
          exact hrinv
        · rw [hxy, if_neg hyid] at hxid ⊢
          rw [mem_id_unique hnodup hy hr hxid]
          exact hrinv
      · exfalso
        rcases List.mem_cons.mp hou with heq | hou2
        · have hidr : first.id = r.id := by
            rw [hact] at hxid
            rw [heq] at hxid
            exact hxid
          have hfr : first = r := mem_id_unique hnodup hfirstdb hr hidr
          have hfirstuv : first.status = OrganisationUserStatusUnverified := by
            have : ({ first with isHome := true } : OrgUser).status
                = OrganisationUserStatusUnverified := by rw [← heq]; exact houst
            exact this
          rw [hfr, hrinv] at hfirstuv
          exact status_invited_ne_unverified hfirstuv
        · have hidr : ou.id = r.id := by
            rw [hact] at hxid
            exact hxid
          have hou3 : ou ∈ db.orgUsers := hsubfil ou (by simp [hou2])
          have hor : ou = r := mem_id_unique hnodup hou3 hr hidr
          rw [hor, hrinv] at houst
          exact status_invited_ne_unverified houst
    | some h0 =>
      by_cases hid0 : h0.id = ""
      · -- find returned a row with empty id: the resolver still takes the
        -- flip branch
        have horg : (verifyOrganisationUserAndReturnHome db u).1.orgUsers
            = (activateOrgUsers (updateOrgUserDB db { first with isHome := true })
                (({ first with isHome := true } : OrgUser) :: rest)).1.orgUsers := by
          simp only [verifyOrganisationUserAndReturnHome, hlst, hfind, List.isEmpty_cons,
            Bool.false_eq_true, if_false, Option.getD_some, if_pos hid0]
          rw [ite_resolver_orgUsers]
        rw [horg] at hx
        rcases activateOrgUsers_mem _ _ x hx with hmem | ⟨ou, hou, houst, d, hact⟩
        · rcases mem_updateOrgUserDB _ _ hmem with ⟨y, hy, hxy⟩
          by_cases hyid : y.id = ({ first with isHome := true } : OrgUser).id
          · rw [hxy, if_pos hyid] at hxid ⊢
            have hfr : first = r := mem_id_unique hnodup hfirstdb hr hxid
            rw [← hfr] at hrinv
            exact hrinv
          · rw [hxy, if_neg hyid] at hxid ⊢
            rw [mem_id_unique hnodup hy hr hxid]
            exact hrinv
        · exfalso
          rcases List.mem_cons.mp hou with heq | hou2
          · have hidr : first.id = r.id := by
              rw [hact] at hxid
              rw [heq] at hxid
              exact hxid
            have hfr : first = r := mem_id_unique hnodup hfirstdb hr hidr
            have hfirstuv : first.status = OrganisationUserStatusUnverified := by
              have : ({ first with isHome := true } : OrgUser).status
                  = OrganisationUserStatusUnverified := by rw [← heq]; exact houst
              exact this
            rw [hfr, hrinv] at hfirstuv
            exact status_invited_ne_unverified hfirstuv
          · have hidr : ou.id = r.id := by
              rw [hact] at hxid
              exact hxid
            have hou3 : ou ∈ db.orgUsers := hsubfil ou (by simp [hou2])
            have hor : ou = r := mem_id_unique hnodup hou3 hr hidr
            rw [hor, hrinv] at houst
            exact status_invited_ne_unverified houst
      · rw [resolver_home_orgUsers db u first rest h0 hlst hfind hid0] at hx
        rcases activateOrgUsers_mem _ _ x hx with hmem | ⟨ou, hou, houst, d, hact⟩
        · rw [mem_id_unique hnodup hmem hr hxid]
          exact hrinv
        · exfalso
          have hidr : ou.id = r.id := by
            rw [hact] at hxid
            exact hxid
          have hou3 : ou ∈ db.orgUsers := hsubfil ou hou
          have hor : ou = r := mem_id_unique hnodup hou3 hr hidr
          rw [hor, hrinv] at houst
          exact status_invited_ne_unverified houst

theorem invited_never_auto_activated_witness :
    (⟨"m1", "org1", "u1", "user", false, "invited"⟩ : OrgUser)
      ∈ (DB.mk [⟨"u1", "regular-p2p-user", "unverified", none, none, ""⟩]
          [⟨"m1", "org1", "u1", "user", false, "invited"⟩]).orgUsers
    ∧ ∀ x ∈ (verifyOrganisationUserAndReturnHome
        ⟨[⟨"u1", "regular-p2p-user", "unverified", none, none, ""⟩],
          [⟨"m1", "org1", "u1", "user", false, "invited"⟩]⟩
        ⟨"u1", "regular-p2p-user", "unverified", none, none, ""⟩).1.orgUsers,
      x.id = "m1" → x.status = OrganisationUserStatusInvited :=
  ⟨by decide,
    invited_never_auto_activated
      ⟨[⟨"u1", "regular-p2p-user", "unverified", none, none, ""⟩],
        [⟨"m1", "org1", "u1", "user", false, "invited"⟩]⟩
      ⟨"u1", "regular-p2p-user", "unverified", none, none, ""⟩
      (by decide) ⟨"m1", "org1", "u1", "user", false, "invited"⟩ (by decide) (by decide)⟩

/-! ### Claim C5 -/

theorem adminQuery_spec (orgID : String) (x : OrgUser) :
    gormMatchOrgUser { emptyOrgUser with
        organisationID := orgID
        organisationRole := OrganisationRoleAdmin
        status := OrganisationUserStatusActive } x = true
      ↔ ((orgID = "" ∨ x.organisationID = orgID)
          ∧ x.organisationRole = OrganisationRoleAdmin
          ∧ x.status = OrganisationUserStatusActive) := by
  simp [gormMatchOrgUser, emptyOrgUser, OrganisationRoleAdmin, OrganisationUserStatusActive]

theorem actRole_admin_iff (d : DB) (o : String) :
    actRole d o = OrganisationRoleAdmin ↔ findActiveAdmin d o = none := by
  unfold actRole
  cases h : findActiveAdmin d o with
  | none => simp
  | some v => simp [OrganisationRoleUser, OrganisationRoleAdmin]

theorem activate_singleton (d : DB) (m : OrgUser)
    (hst : m.status = OrganisationUserStatusUnverified) :
    (activateOrgUsers d [m]).1 = updateOrgUserDB d (actRec d m) := by
  simp [activateOrgUsers, hst]

theorem eq_of_mem_update_id (d : DB) (ou : OrgUser) {x : OrgUser}
    (hx : x ∈ (updateOrgUserDB d ou).orgUsers) (hid : x.id = ou.id) : x = ou := by
  rcases mem_updateOrgUserDB d ou hx with ⟨y, hy, hxy⟩
  by_cases h : y.id = ou.id
  · rw [hxy, if_pos h]
  · exfalso
    rw [hxy] at hid
    rw [if_neg h] at hid
    exact h hid

/-- Flipping is_home on a row does not change whether an organisation has
an active admin. -/
theorem findActiveAdmin_flip (db : DB) (m : OrgUser) (hm : m ∈ db.orgUsers)
    (hnodup : (db.orgUsers.map (fun z => z.id)).Nodup) (o : String) :
    findActiveAdmin (updateOrgUserDB db { m with isHome := true }) o = none
      ↔ findActiveAdmin db o = none := by
  simp only [findActiveAdmin, orgUserFind, updateOrgUserDB_orgUsers]
  rw [List.find?_eq_none, List.find?_eq_none]
  constructor
  · intro hall x hx
    by_cases hid : x.id = m.id
    · have hxm : x = m := mem_id_unique hnodup hx hm hid
      have hflip : ({ m with isHome := true } : OrgUser)
          ∈ db.orgUsers.map (fun z =>
            if z.id = ({ m with isHome := true } : OrgUser).id
              then { m with isHome := true } else z) := by
        refine List.mem_map.mpr ⟨m, hm, ?_⟩
        rw [if_pos rfl]
      have hnp := hall _ hflip
      intro hp
      apply hnp
      rw [adminQuery_spec] at hp ⊢
      rw [hxm] at hp
      exact hp
    · have hxmem : x ∈ db.orgUsers.map (fun z =>
          if z.id = ({ m with isHome := true } : OrgUser).id
            then { m with isHome := true } else z) := by
        refine List.mem_map.mpr ⟨x, hx, ?_⟩
        rw [if_neg hid]
      exact hall x hxmem
  · intro hall x hx
    rcases List.mem_map.mp hx with ⟨y, hy, hxy⟩
    by_cases hid : y.id = m.id
    · rw [← hxy, if_pos hid]
      have hym : y = m := mem_id_unique hnodup hy hm hid
      have hnp := hall m hm
      intro hp
      apply hnp
      rw [adminQuery_spec] at hp ⊢
      exact hp
    · rw [← hxy, if_neg hid]
      exact hall y hy

/-- C5: when the resolver activates a membership whose status is
unverified, the activated row's role is admin exactly when the organisation
has no membership with role admin and status active at that moment, and
regular (user) otherwise.  Part one states this for the membership at the
head of the activation loop against the current database; part two states
it through a full verifyOrganisationUserAndReturnHome run for a user whose
single membership is unverified, measured against the database the run
started from. -/
theorem activation_role_decision :
    (∀ (db : DB) (ou : OrgUser) (rest : List OrgUser),
      ou.status = OrganisationUserStatusUnverified →
      (activateOrgUsers db (ou :: rest)).2.head? = some (actRec db ou)
      ∧ ((actRec db ou).organisationRole = OrganisationRoleAdmin
          ↔ findActiveAdmin db ou.organisationID = none)
      ∧ ((actRec db ou).organisationRole = OrganisationRoleUser
          ↔ (findActiveAdmin db ou.organisationID).isSome))
    ∧ (∀ (db : DB) (u : DbUser) (m : OrgUser),
      db.orgUsers.filter (fun x => x.userID = u.id) = [m] →
      m.status = OrganisationUserStatusUnverified →
      m.id ≠ "" →
      (db.orgUsers.map (fun z => z.id)).Nodup →
      ∀ x ∈ (verifyOrganisationUserAndReturnHome db u).1.orgUsers, x.id = m.id →
        (x.organisationRole = OrganisationRoleAdmin
          ↔ findActiveAdmin db m.organisationID = none)) := by
  constructor
  · intro db ou rest hst
    refine ⟨?_, ?_, ?_⟩
    · simp [activateOrgUsers, hst]
    · exact actRole_admin_iff db ou.organisationID
    · show actRole db ou.organisationID = OrganisationRoleUser ↔ _
      unfold actRole
      cases h : findActiveAdmin db ou.organisationID with
      | none => simp [OrganisationRoleUser, OrganisationRoleAdmin]
      | some v => simp
  · intro db u m hlst hst hmid hnodup x hx hxid
    have hmdb : m ∈ db.orgUsers := by
      have hmf : m ∈ db.orgUsers.filter (fun z => z.userID = u.id) := by
        rw [hlst]
        simp
      exact List.mem_of_mem_filter hmf
    by_cases hhome : m.isHome = true
    · have hfind : ([m] : List OrgUser).find? (fun ou => ou.isHome) = some m := by
        simp [List.find?, hhome]
      have horg := resolver_home_orgUsers db u m [] m hlst hfind hmid
      rw [horg, activate_singleton db m hst] at hx
      have hxact : x = actRec db m := eq_of_mem_update_id db (actRec db m) hx hxid
      rw [hxact]
      exact actRole_admin_iff db m.organisationID
    · have hfind : ([m] : List OrgUser).find? (fun ou => ou.isHome) = none := by
        simp [List.find?, hhome]
      have horg := resolver_noHome_orgUsers db u m [] hlst hfind
      rw [horg] at hx
      have hst2 : ({ m with isHome := true } : OrgUser).status
          = OrganisationUserStatusUnverified := hst
      rw [activate_singleton _ _ hst2] at hx
      have hxact : x = actRec (updateOrgUserDB db { m with isHome := true })
          { m with isHome := true } := eq_of_mem_update_id _ _ hx hxid
      rw [hxact]
      have h1 := actRole_admin_iff (updateOrgUserDB db { m with isHome := true })
        m.organisationID
      have h2 := findActiveAdmin_flip db m hmdb hnodup m.organisationID
      exact h1.trans h2

theorem activation_role_decision_witness :
    (activateOrgUsers
        ⟨[], [⟨"mA", "acme", "uA", "admin", true, "active"⟩]⟩
        [⟨"mB", "acme", "uB", "user", false, "unverified"⟩]).2.head?
      = some (actRec ⟨[], [⟨"mA", "acme", "uA", "admin", true, "active"⟩]⟩
          ⟨"mB", "acme", "uB", "user", false, "unverified"⟩)
    ∧ ((actRec ⟨[], [⟨"mA", "acme", "uA", "admin", true, "active"⟩]⟩
          ⟨"mB", "acme", "uB", "user", false, "unverified"⟩).organisationRole
            = OrganisationRoleAdmin
        ↔ findActiveAdmin ⟨[], [⟨"mA", "acme", "uA", "admin", true, "active"⟩]⟩ "acme"
            = none)
    ∧ ((actRec ⟨[], [⟨"mA", "acme", "uA", "admin", true, "active"⟩]⟩
          ⟨"mB", "acme", "uB", "user", false, "unverified"⟩).organisationRole
            = OrganisationRoleUser
        ↔ (findActiveAdmin ⟨[], [⟨"mA", "acme", "uA", "admin", true, "active"⟩]⟩
            "acme").isSome) :=
  activation_role_decision.1 ⟨[], [⟨"mA", "acme", "uA", "admin", true, "active"⟩]⟩
    ⟨"mB", "acme", "uB", "user", false, "unverified"⟩ [] (by decide)

/-! ### Handler plumbing -/

def JWTResponseStatusFinished : String := "finished"

def KeySignUp : String := "_signup_key"
def KeyWebAuthnLogin : String := "_web_authn_login"

/-- GenerateRedisKey from util.go. -/
def generateRedisKey (uuid suffix : String) : String := uuid ++ suffix

/-- Response bodies the modelled handlers can emit. -/
inductive HBody where
  /-- userResponse: a JSON body carrying a uuid -/
  | uuidBody (uuid : String)
  /-- JwtResponse: jwt plus status -/
  | jwtBody (jwt status : String)
  /-- the DEV-environment body carrying the emailed code -/
  | codeBody (code : String)
  /-- a web-authn challenge body (content at the webauthn library boundary) -/
  | webAuthnBody
deriving DecidableEq, Repr

/-- What a handler writes to the response. -/
inductive HResponse where
  | ok (b : HBody)
  | fail (e : APIError)
  /-- w.WriteHeader(204) -/
  | noContent
deriving DecidableEq, Repr

/-- verificationCodeRequest: the decoded JSON body of send_otp/verify_otp. -/
structure VerificationCodeRequest where
  uuid : String
  typ : String
  code : String
deriving DecidableEq, Repr

/-- The secure default response of VerifyCodeHandler (unauthorized /
invalid code). -/
def secureErrorResponse : APIError :=
  newNestedError (setErrorType emptyAPIError ErrorTypeUnauthorized)
    ReasonFieldInvalid "Invalid code"

/-- SendCodeHandler after JSON decoding succeeded; `code` stands for the
RandCode(6) value drawn inside the email branch. -/
def sendCodeHandler (env : Env) (db : DB) (st : RedisState) (now : Nat)
    (req : VerificationCodeRequest) (code : String) : RedisState × HResponse :=
  match getUser db req.uuid with
  | (_, some e) =>
    if shouldSilenceError e then (st, .noContent) else (st, .fail e)
  | (user, none) =>
    if req.typ.data.length = 0 then
      (st, .fail (newRequiredFieldError ["type"]))
    else if req.typ = "phone" then
      match user.loginPhone with
      | none => (st, .fail (newInvalidFieldError "type" "User doesn't have phone contact"))
      | some _ => (st, .noContent)
    else if req.typ = "email" then
      match user.loginEmail with
      | none => (st, .fail (newInvalidFieldError "type" "User doesn't have email"))
      | some _ =>
        let rediskey := generateRedisKey req.uuid KeySignUp
        let st2 := redisSet st rediskey code (5 * 60) now
        if env.isDev then (st2, .ok (.codeBody code)) else (st2, .noContent)
    else
      (st, .fail (newInvalidFieldError "type" "Invalid otp type"))

/-- VerifyCodeHandler after JSON decoding succeeded.  The local `decodeErr`
mirrors the Go variable `err` at the point of the user lookup: decoding
succeeded, so it is nil, and the handler tests it instead of the lookup's
apiError (the lookup-failure branch is therefore dead).  `twilioOk` is the
phone-channel provider verdict and `sessionBlob` the serialised web-authn
session, both at the collaborator boundary. -/
def verifyCodeHandler (env : Env) (db : DB) (st : RedisState) (now : Nat)
    (req : VerificationCodeRequest) (twilioOk : Bool) (sessionBlob : String) :
    DB × RedisState × HResponse :=
  let decodeErr : Option Unit := none
  let lookup := getUser db req.uuid
  let user := lookup.1
  if decodeErr.isSome then
    match lookup.2 with
    | some e =>
      if shouldSilenceError e then (db, st, .fail secureErrorResponse)
      else (db, st, .fail e)
    | none => (db, st, .fail secureErrorResponse)
  else if req.typ.data.length = 0 then
    (db, st, .fail (newRequiredFieldError ["type"]))
  else
    let afterCode : Option (DB × RedisState × HResponse) :=
      if req.typ = "phone" then
        match user.loginPhone with
        | none =>
          some (db, st, .fail (newInvalidFieldError "type" "User doesn't have phone contact"))
        | some _ =>
          if twilioOk then none
          else some (db, st, .fail (newTwilioError "Verify OTP"))
      else if req.typ = "email" then
        match user.loginEmail with
        | none =>
          some (db, st, .fail (newInvalidFieldError "type" "User doesn't have email contact"))
        | some _ =>
          match redisGet st (generateRedisKey req.uuid KeySignUp) now with
          | none => some (db, st, .fail (newRedisError "Get code failure"))
          | some v =>
            if v ≠ req.code then some (db, st, .fail secureErrorResponse)
            else none
      else
        some (db, st, .fail (newInvalidFieldError "type" "Invalid otp type"))
    match afterCode with
    | some r => r
    | none =>
      if user.loginWebAuthn.data.length > 0 then
        let st2 := redisSet st (generateRedisKey user.id KeyWebAuthnLogin) sessionBlob
          (5 * 60) now
        (db, st2, .ok .webAuthnBody)
      else
        let res := verifyOrganisationUserAndReturnHome db user
        let g := generateJWTString env st now user.id res.2.1.organisationID
        (res.1, g.1, .ok (.jwtBody g.2.1 JWTResponseStatusFinished))

/-- ChangeOrganisationHandler, given the context user (set by the JWT gate)
and the organisation id from the path. -/
def changeOrganisationHandler (env : Env) (db : DB) (st : RedisState) (now : Nat)
    (loggedInUserUUID loggedInOrgUUID organisationID : String) (authHeader : String) :
    DB × RedisState × HResponse :=
  if loggedInOrgUUID = organisationID then
    let splitted := splitOnChar ' ' authHeader.data
    if splitted.length ≠ 2 then
      (db, st, .fail (newAccessForbiddenError "Invalid/Malformed auth token."))
    else
      (db, st, .ok (.jwtBody ⟨splitted.getD 1 []⟩ JWTResponseStatusFinished))
  else
    match getUserRole db loggedInUserUUID with
    | (_, some e) => (db, st, .fail e)
    | (role, none) =>
      let memberCheck : Option APIError :=
        if role ≠ UserRoleAdmin then
          match orgUserFind db { emptyOrgUser with
              organisationID := organisationID
              userID := loggedInUserUUID } with
          | none => some (newOrganisationUserDoesntExistError
              "Organisation User with provided parameters doesn't exist")
          | some ou =>
            if ou.userID ≠ loggedInUserUUID then
              some (newInvalidFieldError "organisation_id" "User don't belong to organisation")
            else none
        else none
      match memberCheck with
      | some e => (db, st, .fail e)
      | none =>
        let g := generateJWTString env st now loggedInUserUUID organisationID
        (db, redisDel g.1 (loggedInUserUUID ++ "|" ++ loggedInOrgUUID),
          .ok (.jwtBody g.2.1 JWTResponseStatusFinished))

/-- GetUserHandler (POST signin) after JSON decoding, relative to the
identity-directory lookup outcome (the lookup by email or phone is the
external-collaborator boundary); `randomUUID` is the pre-generated response
uuid, `hasEmail`/`hasPhone` describe which request fields were present. -/
def getUserHandlerCore (randomUUID : String) (hasEmail hasPhone : Bool)
    (lookup : DbUser × Option APIError) : HResponse :=
  let r :=
    if hasEmail then lookup
    else if hasPhone then lookup
    else (emptyDbUser,
      some (newRequiredFieldError ["email", "phone_number", "phone_country_code"]))
  match r with
  | (_, some e) =>
    if shouldSilenceError e then .ok (.uuidBody randomUUID) else .fail e
  | (user, none) => .ok (.uuidBody user.id)

def PlatformP2P : String := "p2p"
def PlatformTrading : String := "trading"

/-- CreateUserHandler (POST signup) after JSON decoding, relative to the
models.CreateUser outcome (the identity-directory write is the boundary);
webauthn registration is left at its boundary as a distinct body. -/
def createUserHandlerCore (randomUUID : String) (platform referenceKey : String)
    (webAuthn : Bool) (createResult : DbUser × Option APIError) : HResponse :=
  if platform.data.length = 0 then
    .fail (newRequiredFieldError ["platform"])
  else if platform ≠ PlatformP2P ∧ platform ≠ PlatformTrading then
    .fail (newInvalidFieldError "platform" "Invalid platform parameter")
  else if platform = PlatformP2P ∧ referenceKey.data.length = 0 then
    .fail (newRequiredFieldError ["reference_key"])
  else
    match createResult with
    | (_, some e) =>
      if shouldSilenceError e then .ok (.uuidBody randomUUID) else .fail e
    | (createdUser, none) =>
      if webAuthn then .ok .webAuthnBody
      else .ok (.uuidBody createdUser.id)

/-! ### Claim C6 -/

theorem string_data_append (a b : String) : (a ++ b).data = a.data ++ b.data := by
  cases a
  cases b
  rfl

theorem key_ne_of_org_ne (uid o1 o2 : String) (h : o1 ≠ o2) :
    uid ++ "|" ++ o1 ≠ uid ++ "|" ++ o2 := by
  intro he
  apply h
  have hd := congrArg String.data he
  rw [string_data_append, string_data_append, string_data_append, string_data_append] at hd
  have hdata : o1.data = o2.data := List.append_cancel_left hd
  rw [← string_mk_data o1, ← string_mk_data o2, hdata]

theorem memberQuery_spec (orgID uid : String) (x : OrgUser) :
    gormMatchOrgUser { emptyOrgUser with organisationID := orgID, userID := uid } x = true
      ↔ ((orgID = "" ∨ x.organisationID = orgID) ∧ (uid = "" ∨ x.userID = uid)) := by
  simp [gormMatchOrgUser, emptyOrgUser]

theorem data_length_ne_zero_of_ne_empty {s : String} (h : s ≠ "") :
    s.data.length ≠ 0 := by
  intro h0
  apply h
  have hnil : s.data = [] := List.eq_nil_of_length_eq_zero h0
  rw [← string_mk_data s, hnil]

/-- C6: a successful organisation switch by a user scoped to o1 moving to a
different o2 (allowed because the caller is a platform admin or a member of
o2) deletes the ephemeral-store entry for (user, o1), stores and returns a
fresh token for (user, o2), and leaves the whole relational database — in
particular every membership's is_home flag — untouched; when the caller is
neither an admin nor a member of o2, the call fails with the
not-a-member error. -/
theorem change_organisation_switch (env : Env) (db : DB) (st : RedisState) (now : Nat)
    (uid o1 o2 hdr : String) (usr : DbUser)
    (hne : o1 ≠ o2) (htrim : trimSpace uid = uid) (huidne : uid ≠ "")
    (hfind : db.users.find? (fun z => z.id = uid) = some usr) :
    ((usr.role = UserRoleAdmin
        ∨ (orgUserFind db { emptyOrgUser with organisationID := o2, userID := uid }).isSome) →
      (changeOrganisationHandler env db st now uid o1 o2 hdr).1 = db
      ∧ (changeOrganisationHandler env db st now uid o1 o2 hdr).2.2
          = .ok (.jwtBody (generateJWTString env st now uid o2).2.1 JWTResponseStatusFinished)
      ∧ redisGet (changeOrganisationHandler env db st now uid o1 o2 hdr).2.1
          (uid ++ "|" ++ o1) now = none
      ∧ redisGet (changeOrganisationHandler env db st now uid o1 o2 hdr).2.1
          (uid ++ "|" ++ o2) now = some (generateJWTString env st now uid o2).2.1)
    ∧ (usr.role ≠ UserRoleAdmin →
      orgUserFind db { emptyOrgUser with organisationID := o2, userID := uid } = none →
      changeOrganisationHandler env db st now uid o1 o2 hdr
        = (db, st, .fail (newOrganisationUserDoesntExistError
            "Organisation User with provided parameters doesn't exist"))) := by
  have hlen : uid.data.length ≠ 0 := data_length_ne_zero_of_ne_empty huidne
  have hrole : getUserRole db uid = (usr.role, none) := by
    simp only [getUserRole, if_neg hlen, getUser, htrim, if_neg hlen, hfind]
  have ho12 : ¬ (o1 = o2) := hne
  constructor
  · intro hperm
    have hcheck : (if usr.role ≠ UserRoleAdmin then
        match orgUserFind db { emptyOrgUser with organisationID := o2, userID := uid } with
        | none => some (newOrganisationUserDoesntExistError
            "Organisation User with provided parameters doesn't exist")
        | some ou =>
          if ou.userID ≠ uid then
            some (newInvalidFieldError "organisation_id" "User don't belong to organisation")
          else none
        else none) = (none : Option APIError) := by
      rcases hperm with hadmin | hmem
      · simp [hadmin]
      · rcases Option.isSome_iff_exists.mp hmem with ⟨ou, hou⟩
        have hp := List.find?_some hou
        rw [memberQuery_spec] at hp
        have huid2 : ou.userID = uid := by
          rcases hp.2 with hc | hc
          · exact absurd hc huidne
          · exact hc
        by_cases hadmin : usr.role = UserRoleAdmin
        · simp [hadmin]
        · simp [hadmin, hou, huid2]
    have hhandler : changeOrganisationHandler env db st now uid o1 o2 hdr
        = (db, redisDel (generateJWTString env st now uid o2).1 (uid ++ "|" ++ o1),
            .ok (.jwtBody (generateJWTString env st now uid o2).2.1
              JWTResponseStatusFinished)) := by
      simp only [changeOrganisationHandler, if_neg ho12, hrole, hcheck]
    rw [hhandler]
    refine ⟨rfl, rfl, ?_, ?_⟩
    · exact redisGet_del_same _ _ _
    · rw [redisGet_del_other _ _ _ _ (key_ne_of_org_ne uid o2 o1 (Ne.symm hne))]
      apply redisGet_set_same
      simp [tokenExpirationTimeInMin]
  · intro hadmin hnone
    have hcheck : (if usr.role ≠ UserRoleAdmin then
        match orgUserFind db { emptyOrgUser with organisationID := o2, userID := uid } with
        | none => some (newOrganisationUserDoesntExistError
            "Organisation User with provided parameters doesn't exist")
        | some ou =>
          if ou.userID ≠ uid then
            some (newInvalidFieldError "organisation_id" "User don't belong to organisation")
          else none
        else none) = some (newOrganisationUserDoesntExistError
          "Organisation User with provided parameters doesn't exist") := by
      simp [hadmin, hnone]
    simp only [changeOrganisationHandler, if_neg ho12, hrole, hcheck]

theorem change_organisation_switch_witness :
    (changeOrganisationHandler ⟨"k", false⟩
        ⟨[⟨"uC", "regular-p2p-user", "active", none, none, ""⟩],
          [⟨"mX", "orgX", "uC", "user", true, "active"⟩,
            ⟨"mY", "orgY", "uC", "user", false, "active"⟩]⟩
        redisEmpty 7 "uC" "orgX" "orgY" "").1
      = ⟨[⟨"uC", "regular-p2p-user", "active", none, none, ""⟩],
          [⟨"mX", "orgX", "uC", "user", true, "active"⟩,
            ⟨"mY", "orgY", "uC", "user", false, "active"⟩]⟩
    ∧ (changeOrganisationHandler ⟨"k", false⟩
        ⟨[⟨"uC", "regular-p2p-user", "active", none, none, ""⟩],
          [⟨"mX", "orgX", "uC", "user", true, "active"⟩,
            ⟨"mY", "orgY", "uC", "user", false, "active"⟩]⟩
        redisEmpty 7 "uC" "orgX" "orgY" "").2.2
      = .ok (.jwtBody (generateJWTString ⟨"k", false⟩ redisEmpty 7 "uC" "orgY").2.1
          JWTResponseStatusFinished)
    ∧ redisGet (changeOrganisationHandler ⟨"k", false⟩
        ⟨[⟨"uC", "regular-p2p-user", "active", none, none, ""⟩],
          [⟨"mX", "orgX", "uC", "user", true, "active"⟩,
            ⟨"mY", "orgY", "uC", "user", false, "active"⟩]⟩
        redisEmpty 7 "uC" "orgX" "orgY" "").2.1 ("uC" ++ "|" ++ "orgX") 7 = none
    ∧ redisGet (changeOrganisationHandler ⟨"k", false⟩
        ⟨[⟨"uC", "regular-p2p-user", "active", none, none, ""⟩],
          [⟨"mX", "orgX", "uC", "user", true, "active"⟩,
            ⟨"mY", "orgY", "uC", "user", false, "active"⟩]⟩
        redisEmpty 7 "uC" "orgX" "orgY" "").2.1 ("uC" ++ "|" ++ "orgY") 7
      = some (generateJWTString ⟨"k", false⟩ redisEmpty 7 "uC" "orgY").2.1 :=
  (change_organisation_switch ⟨"k", false⟩
    ⟨[⟨"uC", "regular-p2p-user", "active", none, none, ""⟩],
      [⟨"mX", "orgX", "uC", "user", true, "active"⟩,
        ⟨"mY", "orgY", "uC", "user", false, "active"⟩]⟩
    redisEmpty 7 "uC" "orgX" "orgY" ""
    ⟨"uC", "regular-p2p-user", "active", none, none, ""⟩
    (by decide) (by decide) (by decide) (by decide)).1 (Or.inr (by decide))

/-! ### Claim C7 -/

theorem redisGet_set_same_expired (st : RedisState) (key value : String) (ttl now t : Nat)
    (h : ¬ t < now + ttl) : redisGet (redisSet st key value ttl now) key t = none := by
  simp [redisGet, redisSet, h]

theorem jwtkey_ne_signupkey (u org : String) :
    u ++ "|" ++ org ≠ generateRedisKey u KeySignUp := by
  intro he
  have hd := congrArg String.data he
  rw [generateRedisKey, KeySignUp, string_data_append, string_data_append,
    string_data_append] at hd
  rw [List.append_assoc] at hd
  have hcancel := List.append_cancel_left hd
  have hhead : ("|" : String).data ++ org.data ≠ ("_signup_key" : String).data := by
    intro hx
    have := congrArg (fun l => List.head? l) hx
    simp at this
  exact hhead hcancel

theorem getUser_found (db : DB) (uuid : String) (user : DbUser)
    (htrim : trimSpace uuid = uuid) (hlen : uuid.data.length ≠ 0)
    (hfound : db.users.find? (fun z => z.id = uuid) = some user) :
    getUser db uuid = (user, none) := by
  simp only [getUser, htrim, if_neg hlen, hfound]

/-- Evaluation of VerifyCodeHandler in the email channel for a user that
exists. -/
theorem verifyCode_email_eval (env : Env) (db : DB) (st : RedisState) (now : Nat)
    (req : VerificationCodeRequest) (tw : Bool) (sb : String) (user : DbUser)
    (hget : getUser db req.uuid = (user, none)) (htyp : req.typ = "email")
    (c : DbContact) (hemail : user.loginEmail = some c) :
    verifyCodeHandler env db st now req tw sb =
      match redisGet st (generateRedisKey req.uuid KeySignUp) now with
      | none => (db, st, .fail (newRedisError "Get code failure"))
      | some v =>
        if v ≠ req.code then (db, st, .fail secureErrorResponse)
        else if user.loginWebAuthn.data.length > 0 then
          (db, redisSet st (generateRedisKey user.id KeyWebAuthnLogin) sb (5 * 60) now,
            .ok .webAuthnBody)
        else
          ((verifyOrganisationUserAndReturnHome db user).1,
            (generateJWTString env st now user.id
              (verifyOrganisationUserAndReturnHome db user).2.1.organisationID).1,
            .ok (.jwtBody (generateJWTString env st now user.id
              (verifyOrganisationUserAndReturnHome db user).2.1.organisationID).2.1
              JWTResponseStatusFinished)) := by
  simp only [verifyCodeHandler, hget, htyp, hemail]
  have h1 : ¬ (("email" : String).data.length = 0) := by decide
  have h2 : ¬ (("email" : String) = "phone") := by decide
  rw [if_neg (by simp), if_neg h1, if_neg h2, if_true]
  cases hred : redisGet st (generateRedisKey req.uuid KeySignUp) now with
  | none => rfl
  | some v =>
    by_cases hv : v = req.code
    · simp [hv]
    · simp [hv]

/-- Evaluation of the SendCodeHandler email branch state for an existing
user with an email contact. -/
theorem sendCode_email_eval (env : Env) (db : DB) (st : RedisState) (now : Nat)
    (req : VerificationCodeRequest) (code : String) (user : DbUser)
    (hget : getUser db req.uuid = (user, none)) (htyp : req.typ = "email")
    (c : DbContact) (hemail : user.loginEmail = some c) :
    (sendCodeHandler env db st now req code).1
      = redisSet st (generateRedisKey req.uuid KeySignUp) code (5 * 60) now := by
  simp only [sendCodeHandler, hget, htyp, hemail]
  have h1 : ¬ (("email" : String).data.length = 0) := by decide
  have h2 : ¬ (("email" : String) = "phone") := by decide
  rw [if_neg h1, if_neg h2, if_true]
  split
  · rfl
  · rfl

/-- C7 (amended): for the email channel, Send stores the generated code
under uuid_signup_key with a 5-minute TTL; Verify with the exact code
succeeds (responds with a finished JWT) at any instant within the 5
minutes, and leaves the stored code untouched (it is read, compared and
left to expire, not consumed, so a repeat Verify succeeds as well); Verify
after the TTL fails with the expired/unknown redis error and Verify with a
mismatched code fails with the generic invalid-code response, and neither
failure changes the database or the ephemeral store (no session token is
minted). -/
theorem otp_email_round_trip (env : Env) (db : DB) (st0 : RedisState) (t0 : Nat)
    (req : VerificationCodeRequest) (code : String) (user : DbUser) (c : DbContact)
    (htrim : trimSpace req.uuid = req.uuid) (hlen : req.uuid.data.length ≠ 0)
    (hfound : db.users.find? (fun z => z.id = req.uuid) = some user)
    (htyp : req.typ = "email") (hemail : user.loginEmail = some c)
    (hwa : user.loginWebAuthn = "") (hcode : req.code = code) :
    (∀ t, t < t0 + 5 * 60 →
      redisGet (sendCodeHandler env db st0 t0 req code).1
        (generateRedisKey req.uuid KeySignUp) t = some code)
    ∧ (∀ t, ¬ t < t0 + 5 * 60 →
      redisGet (sendCodeHandler env db st0 t0 req code).1
        (generateRedisKey req.uuid KeySignUp) t = none)
    ∧ (∀ t1, t1 < t0 + 5 * 60 → ∀ tw sb,
      (verifyCodeHandler env db (sendCodeHandler env db st0 t0 req code).1 t1 req tw sb).2.2
        = .ok (.jwtBody
            (generateJWTString env (sendCodeHandler env db st0 t0 req code).1 t1 user.id
              (verifyOrganisationUserAndReturnHome db user).2.1.organisationID).2.1
            JWTResponseStatusFinished))
    ∧ (∀ t1, t1 < t0 + 5 * 60 → ∀ tw sb t,
      redisGet
        (verifyCodeHandler env db (sendCodeHandler env db st0 t0 req code).1 t1 req tw sb).2.1
        (generateRedisKey req.uuid KeySignUp) t
        = redisGet (sendCodeHandler env db st0 t0 req code).1
            (generateRedisKey req.uuid KeySignUp) t)
    ∧ (∀ t1, ¬ t1 < t0 + 5 * 60 → ∀ tw sb,
      verifyCodeHandler env db (sendCodeHandler env db st0 t0 req code).1 t1 req tw sb
        = (db, (sendCodeHandler env db st0 t0 req code).1,
            .fail (newRedisError "Get code failure")))
    ∧ (∀ badCode, badCode ≠ code → ∀ t1, t1 < t0 + 5 * 60 → ∀ tw sb,
      verifyCodeHandler env db (sendCodeHandler env db st0 t0 req code).1 t1
          { req with code := badCode } tw sb
        = (db, (sendCodeHandler env db st0 t0 req code).1, .fail secureErrorResponse)) := by
  have hget : getUser db req.uuid = (user, none) := getUser_found db req.uuid user htrim hlen hfound
  have hsend := sendCode_email_eval env db st0 t0 req code user hget htyp c hemail
  have huid : user.id = req.uuid := by
    have h := List.find?_some hfound
    exact of_decide_eq_true h
  have hwalen : ¬ user.loginWebAuthn.data.length > 0 := by
    rw [hwa]
    decide
  refine ⟨?_, ?_, ?_, ?_, ?_, ?_⟩
  · intro t ht
    rw [hsend]
    exact redisGet_set_same st0 _ code _ t0 t ht
  · intro t ht
    rw [hsend]
    exact redisGet_set_same_expired st0 _ code _ t0 t ht
  · intro t1 ht1 tw sb
    rw [verifyCode_email_eval env db _ t1 req tw sb user hget htyp c hemail]
    have hg : redisGet (sendCodeHandler env db st0 t0 req code).1
        (generateRedisKey req.uuid KeySignUp) t1 = some code := by
      rw [hsend]
      exact redisGet_set_same st0 _ code _ t0 t1 ht1
    rw [hg]
    simp [hcode, hwa]
  · intro t1 ht1 tw sb t
    rw [verifyCode_email_eval env db _ t1 req tw sb user hget htyp c hemail]
    have hg : redisGet (sendCodeHandler env db st0 t0 req code).1
        (generateRedisKey req.uuid KeySignUp) t1 = some code := by
      rw [hsend]
      exact redisGet_set_same st0 _ code _ t0 t1 ht1
    rw [hg]
    have hkey : generateRedisKey req.uuid KeySignUp
        ≠ user.id ++ "|" ++ (verifyOrganisationUserAndReturnHome db user).2.1.organisationID := by
      intro he
      apply jwtkey_ne_signupkey user.id
        (verifyOrganisationUserAndReturnHome db user).2.1.organisationID
      rw [huid] at he ⊢
      exact he.symm
    simp [hcode, hwa]
    exact redisGet_set_other _ _ _ _ _ _ _ hkey
  · intro t1 ht1 tw sb
    rw [verifyCode_email_eval env db _ t1 req tw sb user hget htyp c hemail]
    have hg : redisGet (sendCodeHandler env db st0 t0 req code).1
        (generateRedisKey req.uuid KeySignUp) t1 = none := by
      rw [hsend]
      exact redisGet_set_same_expired st0 _ code _ t0 t1 ht1
    rw [hg]
  · intro badCode hbad t1 ht1 tw sb
    rw [verifyCode_email_eval env db _ t1 { req with code := badCode } tw sb user hget htyp
      c hemail]
    have hg : redisGet (sendCodeHandler env db st0 t0 req code).1
        (generateRedisKey req.uuid KeySignUp) t1 = some code := by
      rw [hsend]
      exact redisGet_set_same st0 _ code _ t0 t1 ht1
    rw [hg]
    simp [Ne.symm hbad]

/-- Whether a response is a finished-JWT success (a minted session). -/
def isFinishedJwt : HResponse → Bool
  | .ok (.jwtBody _ s) => s == JWTResponseStatusFinished
  | _ => false

/-- C7 counterexample to the exactly-once clause: after one Send, verifying
the exact code succeeds (mints a session token response), and verifying the
same code again immediately afterwards, on the state the first verification
produced, succeeds a second time — the stored code is not consumed. -/
theorem otp_verify_twice_both_succeed :
    isFinishedJwt
      (verifyCodeHandler ⟨"k", false⟩
        ⟨[⟨"u1", "regular-p2p-user", "unverified", some ⟨"a@b.c", ""⟩, none, ""⟩], []⟩
        (sendCodeHandler ⟨"k", false⟩
          ⟨[⟨"u1", "regular-p2p-user", "unverified", some ⟨"a@b.c", ""⟩, none, ""⟩], []⟩
          redisEmpty 0 ⟨"u1", "email", "C"⟩ "C").1
        1 ⟨"u1", "email", "C"⟩ true "").2.2 = true
    ∧ isFinishedJwt
      (verifyCodeHandler ⟨"k", false⟩
        (verifyCodeHandler ⟨"k", false⟩
          ⟨[⟨"u1", "regular-p2p-user", "unverified", some ⟨"a@b.c", ""⟩, none, ""⟩], []⟩
          (sendCodeHandler ⟨"k", false⟩
            ⟨[⟨"u1", "regular-p2p-user", "unverified", some ⟨"a@b.c", ""⟩, none, ""⟩], []⟩
            redisEmpty 0 ⟨"u1", "email", "C"⟩ "C").1
          1 ⟨"u1", "email", "C"⟩ true "").1
        (verifyCodeHandler ⟨"k", false⟩
          ⟨[⟨"u1", "regular-p2p-user", "unverified", some ⟨"a@b.c", ""⟩, none, ""⟩], []⟩
          (sendCodeHandler ⟨"k", false⟩
            ⟨[⟨"u1", "regular-p2p-user", "unverified", some ⟨"a@b.c", ""⟩, none, ""⟩], []⟩
            redisEmpty 0 ⟨"u1", "email", "C"⟩ "C").1
          1 ⟨"u1", "email", "C"⟩ true "").2.1
        2 ⟨"u1", "email", "C"⟩ true "").2.2 = true := by
  decide

theorem otp_email_round_trip_witness :
    redisGet (sendCodeHandler ⟨"k", false⟩
        ⟨[⟨"u1", "regular-p2p-user", "unverified", some ⟨"a@b.c", ""⟩, none, ""⟩], []⟩
        redisEmpty 0 ⟨"u1", "email", "C"⟩ "C").1
      (generateRedisKey "u1" KeySignUp) 5 = some "C" :=
  (otp_email_round_trip ⟨"k", false⟩
    ⟨[⟨"u1", "regular-p2p-user", "unverified", some ⟨"a@b.c", ""⟩, none, ""⟩], []⟩
    redisEmpty 0 ⟨"u1", "email", "C"⟩ "C"
    ⟨"u1", "regular-p2p-user", "unverified", some ⟨"a@b.c", ""⟩, none, ""⟩ ⟨"a@b.c", ""⟩
    (by decide) (by decide) (by decide) rfl rfl rfl rfl).1 5 (by decide)

/-! ### Claim C9 -/

/-- C9: the silenced errors are exactly the unauthorized errors whose first
nested reason is user-already-exists or user-doesn't-exist, and for both
sign-in (GetUserHandler) and sign-up (CreateUserHandler) a silenced lookup
or creation outcome is answered with the same response shape as success — a
uuid body, carrying the pre-generated random uuid instead of a real id —
while the handler cores perform no store writes on that path. -/
theorem silencing_policy :
    (∀ e : APIError, shouldSilenceError e = true
      ↔ (e.typ = ErrorTypeUnauthorized
          ∧ ∃ first rest, e.errors = first :: rest
            ∧ (first.reason = ReasonUserAlreadyExists
              ∨ first.reason = ReasonUserDoesntExist)))
    ∧ (∀ (r : String) (hasEmail hasPhone : Bool) (u : DbUser) (e : APIError),
      (hasEmail = true ∨ hasPhone = true) → shouldSilenceError e = true →
      getUserHandlerCore r hasEmail hasPhone (u, some e) = .ok (.uuidBody r))
    ∧ (∀ (r : String) (hasEmail hasPhone : Bool) (u : DbUser),
      (hasEmail = true ∨ hasPhone = true) →
      getUserHandlerCore r hasEmail hasPhone (u, none) = .ok (.uuidBody u.id))
    ∧ (∀ (r platform refKey : String) (u : DbUser) (e : APIError),
      platform.data.length ≠ 0 →
      ¬ (platform ≠ PlatformP2P ∧ platform ≠ PlatformTrading) →
      ¬ (platform = PlatformP2P ∧ refKey.data.length = 0) →
      shouldSilenceError e = true →
      createUserHandlerCore r platform refKey false (u, some e) = .ok (.uuidBody r))
    ∧ (∀ (r platform refKey : String) (u : DbUser),
      platform.data.length ≠ 0 →
      ¬ (platform ≠ PlatformP2P ∧ platform ≠ PlatformTrading) →
      ¬ (platform = PlatformP2P ∧ refKey.data.length = 0) →
      createUserHandlerCore r platform refKey false (u, none) = .ok (.uuidBody u.id)) := by
  refine ⟨?_, ?_, ?_, ?_, ?_⟩
  · intro e
    cases herr : e.errors with
    | nil =>
      unfold shouldSilenceError
      simp [herr]
    | cons first rest =>
      unfold shouldSilenceError
      simp only [herr]
      split_ifs with h1 h2
      · exact iff_of_true rfl ⟨h1.1, first, rest, rfl, Or.inl h1.2⟩
      · exact iff_of_true rfl ⟨h2.1, first, rest, rfl, Or.inr h2.2⟩
      · apply iff_of_false (by simp)
        rintro ⟨hty, f, r, heq, hre⟩
        injection heq with hf hr
        subst hf
        rcases hre with h | h
        · exact h1 ⟨hty, h⟩
        · exact h2 ⟨hty, h⟩
  · intro r hasEmail hasPhone u e hpresent hsil
    rcases hpresent with h | h
    · simp [getUserHandlerCore, h, hsil]
    · cases hasEmail
      · simp [getUserHandlerCore, h, hsil]
      · simp [getUserHandlerCore, hsil]
  · intro r hasEmail hasPhone u hpresent
    rcases hpresent with h | h
    · simp [getUserHandlerCore, h]
    · cases hasEmail
      · simp [getUserHandlerCore, h]
      · simp [getUserHandlerCore]
  · intro r platform refKey u e hp1 hp2 hp3 hsil
    have hp1b : ¬ (platform.length = 0) := hp1
    have hp3b : ¬ (platform = PlatformP2P ∧ refKey.length = 0) := hp3
    simp [createUserHandlerCore, hp1b, hp2, hp3b, hsil]
  · intro r platform refKey u hp1 hp2 hp3
    have hp1b : ¬ (platform.length = 0) := hp1
    have hp3b : ¬ (platform = PlatformP2P ∧ refKey.length = 0) := hp3
    simp [createUserHandlerCore, hp1b, hp2, hp3b]

theorem silencing_policy_witness :
    getUserHandlerCore "r-uuid" true false
      (emptyDbUser, some (newUserDoesntExistError "User with provided uuid doesn't exist"))
      = .ok (.uuidBody "r-uuid") :=
  silencing_policy.2.1 "r-uuid" true false emptyDbUser
    (newUserDoesntExistError "User with provided uuid doesn't exist")
    (Or.inl rfl) (by decide)

/-- Evaluation of VerifyCodeHandler when the user lookup fails: the handler
tests the stale decoding error instead of the lookup's apiError, so it
proceeds with the zero user record (no email, no phone, no web-authn) and
answers from the contact checks alone, leaving both stores untouched. -/
theorem verifyCode_missing_user_eval (env : Env) (db : DB) (st : RedisState)
    (now : Nat) (req : VerificationCodeRequest) (twilioOk : Bool)
    (sessionBlob : String) (e : APIError)
    (hmiss : getUser db req.uuid = (emptyDbUser, some e)) :
    verifyCodeHandler env db st now req twilioOk sessionBlob =
      (db, st,
        if req.typ.data.length = 0 then
          HResponse.fail (newRequiredFieldError ["type"])
        else if req.typ = "phone" then
          HResponse.fail (newInvalidFieldError "type" "User doesn't have phone contact")
        else if req.typ = "email" then
          HResponse.fail (newInvalidFieldError "type" "User doesn't have email contact")
        else HResponse.fail (newInvalidFieldError "type" "Invalid otp type")) := by
  unfold verifyCodeHandler
  by_cases h1 : req.typ.data.length = 0
  · simp [hmiss, h1]
  · have h1b : ¬ req.typ.length = 0 := h1
    by_cases h2 : req.typ = "phone"
    · simp [hmiss, h1, h1b, h2, emptyDbUser]
    · by_cases h3 : req.typ = "email"
      · simp [hmiss, h1, h1b, h2, h3, emptyDbUser]
      · simp [hmiss, h1, h1b, h2, h3, emptyDbUser]

/-- C10 counterexample to the unqualified missing-contact clause: the verify
request ("ghost", "BOGUS", "C") names a nonexistent user, yet the handler
answers with the invalid-otp-type error, which is neither of the two
missing-contact errors and not the silenced secure response either. -/
theorem verify_code_bogus_type_counterexample :
    (verifyCodeHandler ⟨"k", false⟩ ⟨[], []⟩ redisEmpty 0
        ⟨"ghost", "BOGUS", "C"⟩ true "").2.2 =
      HResponse.fail (newInvalidFieldError "type" "Invalid otp type") ∧
    HResponse.fail (newInvalidFieldError "type" "Invalid otp type") ≠
      HResponse.fail (newInvalidFieldError "type" "User doesn't have email contact") ∧
    HResponse.fail (newInvalidFieldError "type" "Invalid otp type") ≠
      HResponse.fail (newInvalidFieldError "type" "User doesn't have phone contact") ∧
    HResponse.fail (newInvalidFieldError "type" "Invalid otp type") ≠
      HResponse.fail secureErrorResponse := by
  refine ⟨by decide, by decide, by decide, by decide⟩

/-- C10 (amended): in VerifyCodeHandler the failed-user-lookup branch is
unreachable: the handler tests the stale JSON-decoding error instead of the
lookup's apiError, so for every verify request naming a nonexistent user
uuid it proceeds with an empty user record, never answers with the silenced
generic invalid-code response, leaves the stores unchanged, and responds
with the missing-contact field error when the requested type is email or
phone, with the required-field error when the type is empty, and with the
invalid-otp-type error otherwise. -/
theorem verify_code_dead_lookup_branch (env : Env) (db : DB) (st : RedisState)
    (now : Nat) (req : VerificationCodeRequest) (twilioOk : Bool)
    (sessionBlob : String) (e : APIError)
    (hmiss : getUser db req.uuid = (emptyDbUser, some e)) :
    (verifyCodeHandler env db st now req twilioOk sessionBlob).1 = db ∧
    (verifyCodeHandler env db st now req twilioOk sessionBlob).2.1 = st ∧
    (verifyCodeHandler env db st now req twilioOk sessionBlob).2.2 ≠
      HResponse.fail secureErrorResponse ∧
    (req.typ.data.length = 0 →
      (verifyCodeHandler env db st now req twilioOk sessionBlob).2.2 =
        HResponse.fail (newRequiredFieldError ["type"])) ∧
    (req.typ = "phone" →
      (verifyCodeHandler env db st now req twilioOk sessionBlob).2.2 =
        HResponse.fail (newInvalidFieldError "type" "User doesn't have phone contact")) ∧
    (req.typ = "email" →
      (verifyCodeHandler env db st now req twilioOk sessionBlob).2.2 =
        HResponse.fail (newInvalidFieldError "type" "User doesn't have email contact")) ∧
    (req.typ.data.length ≠ 0 → req.typ ≠ "phone" → req.typ ≠ "email" →
      (verifyCodeHandler env db st now req twilioOk sessionBlob).2.2 =
        HResponse.fail (newInvalidFieldError "type" "Invalid otp type")) := by
  have h := verifyCode_missing_user_eval env db st now req twilioOk sessionBlob e hmiss
  have hne1 : HResponse.fail (newRequiredFieldError ["type"]) ≠
      HResponse.fail secureErrorResponse := by decide
  have hne2 : HResponse.fail (newInvalidFieldError "type" "User doesn't have phone contact") ≠
      HResponse.fail secureErrorResponse := by decide
  have hne3 : HResponse.fail (newInvalidFieldError "type" "User doesn't have email contact") ≠
      HResponse.fail secureErrorResponse := by decide
  have hne4 : HResponse.fail (newInvalidFieldError "type" "Invalid otp type") ≠
      HResponse.fail secureErrorResponse := by decide
  rw [h]
  refine ⟨rfl, rfl, ?_, ?_, ?_, ?_, ?_⟩
  · split_ifs
    · exact hne1
    · exact hne2
    · exact hne3
    · exact hne4
  · intro h0
    rw [if_pos h0]
  · intro h0
    rw [h0]
    exact rfl
  · intro h0
    rw [h0]
    exact rfl
  · intro h0 h1 h2
    rw [if_neg h0, if_neg h1, if_neg h2]

theorem verify_code_dead_lookup_branch_witness :
    getUser ⟨[], []⟩ "ghost" =
      (emptyDbUser,
        some (newUserDoesntExistError "User with provided uuid doesn't exist")) ∧
    ((verifyCodeHandler ⟨"k", false⟩ ⟨[], []⟩ redisEmpty 0
        ⟨"ghost", "email", "C"⟩ true "").1 = ⟨[], []⟩ ∧
      (verifyCodeHandler ⟨"k", false⟩ ⟨[], []⟩ redisEmpty 0
        ⟨"ghost", "email", "C"⟩ true "").2.1 = redisEmpty ∧
      (verifyCodeHandler ⟨"k", false⟩ ⟨[], []⟩ redisEmpty 0
        ⟨"ghost", "email", "C"⟩ true "").2.2 ≠
        HResponse.fail secureErrorResponse ∧
      (("email" : String).data.length = 0 →
        (verifyCodeHandler ⟨"k", false⟩ ⟨[], []⟩ redisEmpty 0
          ⟨"ghost", "email", "C"⟩ true "").2.2 =
          HResponse.fail (newRequiredFieldError ["type"])) ∧
      (("email" : String) = "phone" →
        (verifyCodeHandler ⟨"k", false⟩ ⟨[], []⟩ redisEmpty 0
          ⟨"ghost", "email", "C"⟩ true "").2.2 =
          HResponse.fail (newInvalidFieldError "type" "User doesn't have phone contact")) ∧
      (("email" : String) = "email" →
        (verifyCodeHandler ⟨"k", false⟩ ⟨[], []⟩ redisEmpty 0
          ⟨"ghost", "email", "C"⟩ true "").2.2 =
          HResponse.fail (newInvalidFieldError "type" "User doesn't have email contact")) ∧
      (("email" : String).data.length ≠ 0 → ("email" : String) ≠ "phone" →
        ("email" : String) ≠ "email" →
        (verifyCodeHandler ⟨"k", false⟩ ⟨[], []⟩ redisEmpty 0
          ⟨"ghost", "email", "C"⟩ true "").2.2 =
          HResponse.fail (newInvalidFieldError "type" "Invalid otp type"))) :=
  ⟨by decide,
    verify_code_dead_lookup_branch ⟨"k", false⟩ ⟨[], []⟩ redisEmpty 0
      ⟨"ghost", "email", "C"⟩ true ""
      (newUserDoesntExistError "User with provided uuid doesn't exist") (by decide)⟩
